import Mathlib

/-!
# kata-xpu-device-plugin: bus scan, allocation, health monitoring

A shallow embedding of `pkg/device_plugin/device_plugin.go`,
`pkg/device_plugin/generic_device_plugin.go` and `cdi/spec.go`, and theorems
about it.

Conventions of the embedding:

* a Go `map[string]V` is an association list with at most one binding per key
  (`mapSet` overwrites in place); a missing key reads as `none`, and as the empty
  slice through `mapGetD`;
* the package-level function variables `readLink` and `readIDFromFile` are the
  fields of a `Bus` value (the fixed `basePath` argument is left out);
* `filepath.Walk` is the list of callback invocations it would make, each a
  `WalkEntry`; the walk stops at the first invocation whose callback returns an error;
* `uint` device indices are natural numbers: the counter is incremented once per
  device appended to a slice held in memory, so it cannot reach `2^64`;
* a `range` over a Go map visits the bindings in list order;
* calls on the operating system and on libraries outside the repository are
  parameters: the outcome of each call (`StartCalls`, `WatchCalls`), the function
  itself (`CdiLib`), or the data read (`Host`: the lines of the catalog file and
  the Unicode case table for runes above ASCII); a call that panics ends the
  process and is not modelled;
* functions of Go's standard library on strings and paths (`filepath.Join`,
  `path.Base`, `strings.TrimSpace`, `strings.ToUpper`, the two regular-expression
  replacements of `getDeviceName`) are written out by their documented rules.
-/

namespace KataXpu

/-! ## Go maps -/

/-- A Go map keyed by strings. -/
abbrev GoMap (V : Type) := List (String × V)

/-- The lookup `v, ok := m[k]`. -/
def mapGet? {V : Type} : GoMap V → String → Option V
  | [], _ => none
  | (k', v) :: rest, k => if k' = k then some v else mapGet? rest k

/-- The assignment `m[k] = v`. -/
def mapSet {V : Type} : GoMap V → String → V → GoMap V
  | [], k, v => [(k, v)]
  | (k', v') :: rest, k, v =>
    if k' = k then (k', v) :: rest else (k', v') :: mapSet rest k v

/-- The lookup `m[k]` of a slice-valued map: the zero value (nil slice) when absent. -/
def mapGetD {V : Type} (m : GoMap (List V)) (k : String) : List V :=
  (mapGet? m k).getD []

/-- The keys of a map. -/
def mapKeys {V : Type} (m : GoMap V) : List String := m.map Prod.fst

/-- The concatenation of all the slices of a slice-valued map. -/
def mapValues {V : Type} : GoMap (List V) → List V
  | [] => []
  | (_, vs) :: rest => vs ++ mapValues rest

/-! ## Bus scanner (`device_plugin.go`) -/

/-- The struct `NvidiaGpuDevice`. -/
structure NvidiaGpuDevice where
  addr : String
  index : Nat
deriving DecidableEq, Repr

/-- The two bus readers, `readIDFromFile(basePath, deviceAddress, property)` and
`readLink(basePath, deviceAddress, link)`; `none` is a non-nil error. -/
structure Bus where
  readIDFromFile : String → String → Option String
  readLink : String → String → Option String

/-- One invocation of the `filepath.Walk` callback: `info.Name()`, `info.IsDir()`
and the `err` argument (`none` for nil). -/
structure WalkEntry where
  name : String
  isDir : Bool
  err : Option String
deriving DecidableEq, Repr

/-- The package variables `iommuMap`, `deviceMap` and the local `busIndex`. -/
structure ScanState where
  iommuMap : GoMap (List NvidiaGpuDevice)
  deviceMap : GoMap (List String)
  busIndex : Nat
deriving DecidableEq, Repr

/-- The state at the start of `createIommuDeviceMap`. -/
def ScanState.init : ScanState := ⟨[], [], 0⟩

/-- Lines 171-175: append the device to its group and advance the counter. -/
def appendDevice (st : ScanState) (iommuGroup name : String) : ScanState :=
  { st with
    iommuMap := mapSet st.iommuMap iommuGroup
      (mapGetD st.iommuMap iommuGroup ++ [⟨name, st.busIndex⟩])
    busIndex := st.busIndex + 1 }

/-- The callback passed to `filepath.Walk` in `createIommuDeviceMap`:
`.error` is a non-nil return value, `.ok` the state after a nil return. -/
def walkFn (bus : Bus) (st : ScanState) (e : WalkEntry) : Except String ScanState :=
  match e.err with
  | some err => .error err
  | none =>
    if e.isDir then .ok st
    else
      match bus.readIDFromFile e.name "vendor" with
      | none => .ok st
      | some vendorID =>
        if vendorID = "10de" then
          match bus.readLink e.name "driver" with
          | none => .ok st
          | some driver =>
            if driver = "vfio-pci" then
              match bus.readLink e.name "iommu_group" with
              | none => .ok st
              | some iommuGroup =>
                match mapGet? st.iommuMap iommuGroup with
                | some _ => .ok (appendDevice st iommuGroup e.name)
                | none =>
                  match bus.readIDFromFile e.name "device" with
                  | none => .ok st
                  | some deviceID =>
                    .ok (appendDevice
                      { st with
                        deviceMap := mapSet st.deviceMap deviceID
                          (mapGetD st.deviceMap deviceID ++ [iommuGroup]) }
                      iommuGroup e.name)
            else .ok st
        else .ok st

/-- The function `filepath.Walk` over the callback: the state reached and the error
it returns (the first non-nil callback result, after which nothing is visited). -/
def walk (bus : Bus) : List WalkEntry → ScanState → ScanState × Option String
  | [], st => (st, none)
  | e :: rest, st =>
    match walkFn bus st e with
    | .error err => (st, some err)
    | .ok st' => walk bus rest st'

/-- The function `createIommuDeviceMap`: both maps are reset, the tree is walked,
and the value `filepath.Walk` returns is dropped. -/
def createIommuDeviceMap (bus : Bus) (entries : List WalkEntry) : ScanState :=
  (walk bus entries ScanState.init).1

/-! ### The qualifying devices, stated without the maps -/

/-- A device the scan accepts: its group, its bus address, and the device id it
registers when it is the first device of its group. -/
structure Qualified where
  group : String
  name : String
  newModel : Option String
deriving DecidableEq, Repr

/-- Whether a visited entry qualifies, given the groups recorded so far: it is not
a directory, its vendor file reads `10de`, its driver link resolves to `vfio-pci`,
its iommu_group link resolves and, when the group is not yet recorded, its device
file reads. -/
def qualify (bus : Bus) (seen : List String) (e : WalkEntry) : Option Qualified :=
  if e.isDir = false ∧ bus.readIDFromFile e.name "vendor" = some "10de"
      ∧ bus.readLink e.name "driver" = some "vfio-pci" then
    match bus.readLink e.name "iommu_group" with
    | none => none
    | some g =>
      if g ∈ seen then some ⟨g, e.name, none⟩
      else
        match bus.readIDFromFile e.name "device" with
        | none => none
        | some m => some ⟨g, e.name, some m⟩
  else none

/-- The qualifying devices of a walk, in walk order; nothing after a walk error
is visited. -/
def qualifying (bus : Bus) : List String → List WalkEntry → List Qualified
  | _, [] => []
  | seen, e :: rest =>
    if e.err.isSome then []
    else
      match qualify bus seen e with
      | none => qualifying bus seen rest
      | some q => q :: qualifying bus (q.group :: seen) rest

/-- What the callback does with a qualifying device. -/
def record (st : ScanState) (q : Qualified) : ScanState :=
  appendDevice
    (match q.newModel with
      | none => st
      | some m =>
        { st with deviceMap := mapSet st.deviceMap m (mapGetD st.deviceMap m ++ [q.group]) })
    q.group q.name

/-- The devices of group `g` among `qs`, the `k`-th of `qs` carrying index `start + k`. -/
def devicesOf (g : String) : Nat → List Qualified → List NvidiaGpuDevice
  | _, [] => []
  | k, q :: rest =>
    if q.group = g then ⟨q.name, k⟩ :: devicesOf g (k + 1) rest
    else devicesOf g (k + 1) rest

/-- All of `qs` as devices, the `k`-th carrying index `start + k`. -/
def indexed : Nat → List Qualified → List NvidiaGpuDevice
  | _, [] => []
  | k, q :: rest => ⟨q.name, k⟩ :: indexed (k + 1) rest

/-- The groups that `qs` registers under model id `m`. -/
def groupsOf (m : String) : List Qualified → List String
  | [] => []
  | q :: rest => if q.newModel = some m then q.group :: groupsOf m rest else groupsOf m rest

/-! ### A sample bus -/

/-- Two passthrough GPUs sharing group 214 with different device ids, one GPU
bound to another driver, and one device of another vendor. -/
def sampleBus : Bus where
  readIDFromFile := fun a p =>
    if p = "vendor" then
      if a = "0000:c1:00.0" ∨ a = "0000:c1:00.1" ∨ a = "0000:3d:00.0" then some "10de"
      else if a = "0000:00:1f.0" then some "8086" else none
    else if p = "device" then
      if a = "0000:c1:00.0" then some "20b5"
      else if a = "0000:c1:00.1" then some "1aef"
      else if a = "0000:3d:00.0" then some "20b5" else none
    else none
  readLink := fun a l =>
    if l = "driver" then
      if a = "0000:c1:00.0" ∨ a = "0000:c1:00.1" then some "vfio-pci"
      else if a = "0000:3d:00.0" then some "nvidia" else none
    else if l = "iommu_group" then
      if a = "0000:c1:00.0" ∨ a = "0000:c1:00.1" then some "214"
      else if a = "0000:3d:00.0" then some "75" else none
    else none

/-- A walk of the sample bus: the root directory, then four device links. -/
def sampleWalk : List WalkEntry :=
  [⟨"devices", true, none⟩, ⟨"0000:00:1f.0", false, none⟩, ⟨"0000:3d:00.0", false, none⟩,
   ⟨"0000:c1:00.0", false, none⟩, ⟨"0000:c1:00.1", false, none⟩]

/-! ## Allocation (`generic_device_plugin.go`) -/

/-- The constant `K8SCDIVendorClass`. -/
def K8SCDIVendorClass : String := "KUBERNETES_CDI_VENDOR_CLASS"

/-- The constant `CdiVendorClass`. -/
def CdiVendorClass : String := "nvidia.com/gpu"

/-- The constant `cdi.DeviceListStrategyCDIAnnotations`. -/
def DeviceListStrategyCDIAnnotations : String := "cdi-annotations"

/-- The constant `cdi.DeviceListStrategyCDICRI`. -/
def DeviceListStrategyCDICRI : String := "cdi-cri"

/-- The constant `cdi.DefaultCDIAnnotationPrefix`, the CDI library's `AnnotationPrefix`. -/
def DefaultCDIAnnotationPrefix : String := "cdi.k8s.io/"

/-- The constant `pluginapi.Healthy`. -/
def Healthy : String := "Healthy"

/-- The constant `pluginapi.Unhealthy`. -/
def Unhealthy : String := "Unhealthy"

/-- The constant `pluginapi.DevicePluginPath`. -/
def DevicePluginPath : String := "/var/lib/kubelet/device-plugins/"

/-- The message `pluginapi.Device`: an advertised unit. -/
structure Device where
  ID : String
  Health : String
deriving DecidableEq, Repr

/-- The fields of `GenericDevicePlugin` that are data; `serverStarted` is
`server != nil`, and the channels are the events of the sessions below. -/
structure GenericDevicePlugin where
  devs : List Device
  serverStarted : Bool
  socketPath : String
  devicePath : String
  devpluginName : String
  cdiAnnotationPrefix : String
  deviceListStrategies : GoMap Bool
deriving DecidableEq, Repr

/-- The function `newDeviceListStrategies`. -/
def newDeviceListStrategies : GoMap Bool :=
  [(DeviceListStrategyCDIAnnotations, false), (DeviceListStrategyCDICRI, true)]

/-- The method `DeviceListStrategies.Includes`: `s[strategy]`, false when absent. -/
def Includes (s : GoMap Bool) (strategy : String) : Bool :=
  (mapGet? s strategy).getD false

/-- The function `NewGenericDevicePlugin`. -/
def NewGenericDevicePlugin (devpluginName devicePath : String) (devices : List Device) :
    GenericDevicePlugin where
  devs := devices
  serverStarted := false
  socketPath := DevicePluginPath ++ "kata-xpu-" ++ devpluginName ++ ".sock"
  devicePath := devicePath
  devpluginName := devpluginName
  cdiAnnotationPrefix := ""
  deviceListStrategies := newDeviceListStrategies

/-- The two library calls the response builder makes: `cdiapi.UpdateAnnotations`
applied to an empty map, the plugin name, a correlation id and the device names;
and `uuid.New().String()`, here the id drawn for the `k`-th container request. -/
structure CdiLib where
  updateAnnotations : String → List String → Except String (GoMap String)
  newUUID : Nat → String

/-- The message `pluginapi.ContainerAllocateResponse`; a CDI device is its name. -/
structure ContainerAllocateResponse where
  Envs : GoMap String
  Annotations : GoMap String
  CDIDevices : List String
deriving DecidableEq, Repr

/-- The message `pluginapi.ContainerAllocateRequest`. -/
structure ContainerAllocateRequest where
  DevicesIDs : List String
deriving DecidableEq, Repr

/-- The message `pluginapi.AllocateRequest`. -/
structure AllocateRequest where
  ContainerRequests : List ContainerAllocateRequest
deriving DecidableEq, Repr

/-- The message `pluginapi.AllocateResponse`. -/
structure AllocateResponse where
  ContainerResponses : List ContainerAllocateResponse
deriving DecidableEq, Repr

/-- Go's `strings.TrimPrefix`. -/
def trimPrefix (s p : String) : String :=
  if p.data.isPrefixOf s.data then ⟨s.data.drop p.data.length⟩ else s

/-- The function `cdi.QualifiedName`, the CDI parser's `vendor/class=name`. -/
def QualifiedName (vendor cls id : String) : String :=
  vendor ++ "/" ++ cls ++ "=" ++ id

/-- The method `getCDIDeviceAnnotations`; the map is ranged over in list order. -/
def getCDIDeviceAnnotations (lib : CdiLib) (plugin : GenericDevicePlugin) (id : String)
    (devices : List String) : Except String (GoMap String) :=
  match lib.updateAnnotations id devices with
  | .error err => .error ("failed to add CDI annotations: " ++ err)
  | .ok annotations =>
    if plugin.cdiAnnotationPrefix = DefaultCDIAnnotationPrefix then .ok annotations
    else
      .ok (annotations.foldl
        (fun updated kv =>
          mapSet updated (plugin.cdiAnnotationPrefix ++ trimPrefix kv.1 DefaultCDIAnnotationPrefix)
            kv.2)
        [])

/-- The method `updateResponseForCDI`: the updated response, or the error. -/
def updateResponseForCDI (lib : CdiLib) (plugin : GenericDevicePlugin)
    (response : ContainerAllocateResponse) (responseID : String) (deviceIDs : List Nat) :
    Except String ContainerAllocateResponse :=
  let devices := deviceIDs.map (fun id => QualifiedName "nvidia.com" "gpu" (toString id))
  if devices.length = 0 then .ok response
  else
    let annotated : Except String ContainerAllocateResponse :=
      if Includes plugin.deviceListStrategies DeviceListStrategyCDIAnnotations then
        match getCDIDeviceAnnotations lib plugin responseID devices with
        | .error err => .error err
        | .ok annotations => .ok { response with Annotations := annotations }
      else .ok response
    match annotated with
    | .error err => .error err
    | .ok response =>
      if Includes plugin.deviceListStrategies DeviceListStrategyCDICRI then
        .ok { response with CDIDevices := response.CDIDevices ++ devices }
      else .ok response

/-- The method `getAllocateResponse`, the correlation id passed in. -/
def getAllocateResponse (lib : CdiLib) (plugin : GenericDevicePlugin) (responseID : String)
    (deviceIDs : List Nat) : Except String ContainerAllocateResponse :=
  match updateResponseForCDI lib plugin ⟨[], [], []⟩ responseID deviceIDs with
  | .error err => .error ("failed to get allocate response for CDI: " ++ err)
  | .ok response => .ok response

/-- The error `Allocate` returns for a device whose live bus state has changed. -/
def unknownDevice (addr : String) : String :=
  "invalid allocation request: unknown device: " ++ addr

/-- The innermost loop of `Allocate`, over the devices of one group: the indexes
appended to `devIndexes`, or the error returned. -/
def checkDevices (bus : Bus) (iommuId : String) : List NvidiaGpuDevice → Except String (List Nat)
  | [] => .ok []
  | dev :: rest =>
    if bus.readLink dev.addr "iommu_group" ≠ some iommuId then .error (unknownDevice dev.addr)
    else if bus.readIDFromFile dev.addr "vendor" ≠ some "10de" then
      .error (unknownDevice dev.addr)
    else
      match checkDevices bus iommuId rest with
      | .error err => .error err
      | .ok indexes => .ok (dev.index :: indexes)

/-- The loop of `Allocate` over `req.DevicesIDs`: the final `devIndexes`, or the error. -/
def collectIndexes (bus : Bus) (inventory : GoMap (List NvidiaGpuDevice)) :
    List String → Except String (List Nat)
  | [] => .ok []
  | iommuId :: rest =>
    match checkDevices bus iommuId (mapGetD inventory iommuId) with
    | .error err => .error err
    | .ok indexes =>
      match collectIndexes bus inventory rest with
      | .error err => .error err
      | .ok more => .ok (indexes ++ more)

/-- The body of the outer loop of `Allocate` for the `k`-th container request. -/
def allocateContainer (lib : CdiLib) (bus : Bus) (inventory : GoMap (List NvidiaGpuDevice))
    (dpi : GenericDevicePlugin) (k : Nat) (req : ContainerAllocateRequest) :
    Except String ContainerAllocateResponse :=
  match collectIndexes bus inventory req.DevicesIDs with
  | .error err => .error err
  | .ok devIndexes =>
    match getAllocateResponse lib dpi (lib.newUUID k) devIndexes with
    | .error err => .error ("failed to get allocate response: " ++ err)
    | .ok allocated => .ok { allocated with Envs := [(K8SCDIVendorClass, CdiVendorClass)] }

/-- The outer loop of `Allocate`, from the `k`-th container request on. -/
def allocateLoop (lib : CdiLib) (bus : Bus) (inventory : GoMap (List NvidiaGpuDevice))
    (dpi : GenericDevicePlugin) : Nat → List ContainerAllocateRequest →
    Except String (List ContainerAllocateResponse)
  | _, [] => .ok []
  | k, req :: rest =>
    match allocateContainer lib bus inventory dpi k req with
    | .error err => .error err
    | .ok response =>
      match allocateLoop lib bus inventory dpi (k + 1) rest with
      | .error err => .error err
      | .ok responses => .ok (response :: responses)

/-- The method `Allocate`: the plugin after the call, and either the response or
the error (every error return of the source is `nil, err`). -/
def Allocate (lib : CdiLib) (bus : Bus) (inventory : GoMap (List NvidiaGpuDevice))
    (dpi : GenericDevicePlugin) (reqs : AllocateRequest) :
    GenericDevicePlugin × Except String AllocateResponse :=
  match allocateLoop lib bus inventory dpi 0 reqs.ContainerRequests with
  | .error err => (dpi, .error err)
  | .ok responses => (dpi, .ok ⟨responses⟩)

/-! ## Streaming list session -/

/-- What the `select` of `ListAndWatch` can receive. -/
inductive WatchEvent where
  | unhealthy (id : String)
  | healthy (id : String)
  | stop
  | term
deriving DecidableEq, Repr

/-- The loop `for _, dev := range dpi.devs { if id == dev.ID { dev.Health = health } }`. -/
def markHealth (devs : List Device) (id health : String) : List Device :=
  devs.map (fun dev => if id = dev.ID then { dev with Health := health } else dev)

/-- The `select` loop of `ListAndWatch` over the events it receives: the device
list when the session ends (or waits for more events) and the lists sent. -/
def watchLoop : List Device → List WatchEvent → List Device × List (List Device)
  | devs, [] => (devs, [])
  | devs, .unhealthy id :: rest =>
    let devs' := markHealth devs id Unhealthy
    let r := watchLoop devs' rest
    (r.1, devs' :: r.2)
  | devs, .healthy id :: rest =>
    let devs' := markHealth devs id Healthy
    let r := watchLoop devs' rest
    (r.1, devs' :: r.2)
  | devs, .stop :: _ => (devs, [])
  | devs, .term :: _ => (devs, [])

/-- The method `ListAndWatch`: the plugin afterwards and every list sent on the
stream, the first being the current list. -/
def ListAndWatch (dpi : GenericDevicePlugin) (events : List WatchEvent) :
    GenericDevicePlugin × List (List Device) :=
  let r := watchLoop dpi.devs events
  ({ dpi with devs := r.1 }, dpi.devs :: r.2)

/-! ## Health monitor -/

/-- Components of a path between slashes. -/
def splitSlash : List Char → List (List Char)
  | [] => [[]]
  | c :: cs =>
    match splitSlash cs with
    | [] => [[c]]
    | comp :: comps => if c = '/' then [] :: comp :: comps else (c :: comp) :: comps

/-- One component of `filepath.Clean`, the kept components in reverse: empty and
`.` components are dropped, `..` removes the component before it, is dropped at
the root, and is kept at the start of a relative path. -/
def cleanStep (rooted : Bool) (out : List (List Char)) (comp : List Char) : List (List Char) :=
  if comp = [] ∨ comp = ['.'] then out
  else if comp = ['.', '.'] then
    match out with
    | [] => if rooted then [] else [comp]
    | top :: below => if top = ['.', '.'] then comp :: top :: below else below
  else comp :: out

/-- Go's `filepath.Clean` on Unix (standard library), by its documented rules. -/
def filepathClean (path : String) : String :=
  if path = "" then "."
  else
    let rooted := path.data.head? = some '/'
    let comps := ((splitSlash path.data).foldl (cleanStep rooted) []).reverse
    let body := String.mk (List.intercalate ['/'] comps)
    if rooted then "/" ++ body else if body = "" then "." else body

/-- Go's `filepath.Join` of two elements on Unix (standard library): the elements
from the first non-empty one on, joined by a slash and cleaned. -/
def filepathJoin (a b : String) : String :=
  if a ≠ "" then filepathClean (a ++ "/" ++ b)
  else if b ≠ "" then filepathClean b
  else ""

/-- The operation `fsnotify.Create`. -/
def fsCreate : Nat := 1

/-- The operation `fsnotify.Write`. -/
def fsWrite : Nat := 2

/-- The operation `fsnotify.Remove`. -/
def fsRemove : Nat := 4

/-- The operation `fsnotify.Rename`. -/
def fsRename : Nat := 8

/-- The operation `fsnotify.Chmod`. -/
def fsChmod : Nat := 16

/-- The struct `fsnotify.Event`; `Op` is a bit mask. -/
structure FsEvent where
  Name : String
  Op : Nat
deriving DecidableEq, Repr

/-- What `healthCheck` does with one event. -/
inductive MonitorAction where
  | emitHealthy (id : String)
  | emitUnhealthy (id : String)
  | restartAndReturn
  | nothing
deriving DecidableEq, Repr

/-- The outcome of each call `healthCheck` makes on the operating system, `none`
for a nil error: `fsnotify.NewWatcher`, `watcher.Add` on the endpoint directory,
`os.Stat` on the device directory (`none` also when it does not exist),
`watcher.Add` on a device path, and the call of `restart`. -/
structure WatchCalls where
  newWatcher : Option String
  addSocketDir : Option String
  stat : Option String
  addDevice : String → Option String
  restart : Option String

/-- The loop of `healthCheck` over `dpi.devs`: a watch and an entry of
`pathDeviceMap` per device, or the error of the first watch that cannot be added. -/
def watchDevices (calls : WatchCalls) (path : String) :
    List Device → GoMap String → Except String (GoMap String)
  | [], pathDeviceMap => .ok pathDeviceMap
  | dev :: rest, pathDeviceMap =>
    match calls.addDevice (filepathJoin path dev.ID) with
    | some err => .error err
    | none => watchDevices calls path rest (mapSet pathDeviceMap (filepathJoin path dev.ID) dev.ID)

/-- The map `pathDeviceMap` when every watch is added: `devicePath` joined with
the unit id, mapped to the unit id, over the advertised list. -/
def buildPathDeviceMap (path : String) (devs : List Device) : GoMap String :=
  devs.foldl (fun m dev => mapSet m (filepathJoin path dev.ID) dev.ID) []

/-- The body of `case event := <-watcher.Events` in `healthCheck`. -/
def handleEvent (pathDeviceMap : GoMap String) (socketPath : String) (event : FsEvent) :
    MonitorAction :=
  match mapGet? pathDeviceMap event.Name with
  | some v =>
    if event.Op = fsCreate then .emitHealthy v
    else if event.Op = fsRemove ∨ event.Op = fsRename then .emitUnhealthy v
    else .nothing
  | none =>
    if event.Name = socketPath ∧ event.Op = fsRemove then .restartAndReturn
    else .nothing

/-- What the `select` of `healthCheck` can receive. -/
inductive MonitorInput where
  | stop
  | event (ev : FsEvent)
deriving DecidableEq, Repr

/-- The result of `healthCheck` over its inputs: what was sent on the healthy and
unhealthy channels in order (`true` for healthy), how many times `restart` was
called, whether the function has returned, and the error it returned. -/
structure MonitorRun where
  sent : List (Bool × String)
  restarts : Nat
  returned : Bool
  err : Option String
deriving DecidableEq, Repr

/-- The `for { select { ... } }` loop of `healthCheck`. -/
def monitorLoop (calls : WatchCalls) (pathDeviceMap : GoMap String) (socketPath : String) :
    List MonitorInput → MonitorRun
  | [] => ⟨[], 0, false, none⟩
  | .stop :: _ => ⟨[], 0, true, none⟩
  | .event ev :: rest =>
    match handleEvent pathDeviceMap socketPath ev with
    | .emitHealthy v =>
      let r := monitorLoop calls pathDeviceMap socketPath rest
      { r with sent := (true, v) :: r.sent }
    | .emitUnhealthy v =>
      let r := monitorLoop calls pathDeviceMap socketPath rest
      { r with sent := (false, v) :: r.sent }
    | .restartAndReturn => ⟨[], 1, true, calls.restart⟩
    | .nothing => monitorLoop calls pathDeviceMap socketPath rest

/-- The method `healthCheck`. -/
def healthCheck (calls : WatchCalls) (dpi : GenericDevicePlugin)
    (inputs : List MonitorInput) : MonitorRun :=
  match calls.newWatcher with
  | some err => ⟨[], 0, true, some err⟩
  | none =>
    match calls.addSocketDir with
    | some err => ⟨[], 0, true, some err⟩
    | none =>
      match calls.stat with
      | some err => ⟨[], 0, true, some err⟩
      | none =>
        match watchDevices calls dpi.devicePath dpi.devs [] with
        | .error err => ⟨[], 0, true, some err⟩
        | .ok pathDeviceMap => monitorLoop calls pathDeviceMap dpi.socketPath inputs

/-! ## Server start -/

/-- The outcome of each call `Start` makes, `none` for a nil error: `cleanup`,
`net.Listen`, `waitForGrpcServer` and `Register`. -/
structure StartCalls where
  cleanup : Option String
  listen : Option String
  waitForGrpcServer : Option String
  register : Option String
deriving DecidableEq, Repr

/-- What `Start` leaves behind: the plugin, the error returned, and whether
the two goroutines `server.Serve` and `healthCheck` were started. -/
structure StartResult where
  dpi : GenericDevicePlugin
  err : Option String
  serving : Bool
  healthCheckStarted : Bool
deriving DecidableEq, Repr

/-- The method `Start`. The error of `waitForGrpcServer` is assigned to `err`
and logged; the next statement assigns the result of `Register` to `err`. -/
def Start (calls : StartCalls) (dpi : GenericDevicePlugin) : StartResult :=
  if dpi.serverStarted then ⟨dpi, some "gRPC server already started", false, false⟩
  else
    match calls.cleanup with
    | some err => ⟨dpi, some err, false, false⟩
    | none =>
      match calls.listen with
      | some err => ⟨dpi, some err, false, false⟩
      | none =>
        let dpi' := { dpi with serverStarted := true }
        -- `err = waitForGrpcServer(...)` is only logged; `err = dpi.Register()` overwrites it
        match calls.register with
        | some err => ⟨dpi', some err, true, false⟩
        | none => ⟨dpi', none, true, true⟩

/-! ## The devices a request re-reads, and sample values -/

/-- The devices `Allocate` re-reads for one container request, in the order it
visits them (domain ids in request order, devices in inventory order), each with
the domain id it was requested under. -/
def containerDevices (inventory : GoMap (List NvidiaGpuDevice))
    (req : ContainerAllocateRequest) : List (String × NvidiaGpuDevice) :=
  req.DevicesIDs.flatMap (fun id => (mapGetD inventory id).map (fun dev => (id, dev)))

/-- The devices `Allocate` re-reads for a whole request, container by container. -/
def requestedDevices (inventory : GoMap (List NvidiaGpuDevice)) (reqs : AllocateRequest) :
    List (String × NvidiaGpuDevice) :=
  reqs.ContainerRequests.flatMap (containerDevices inventory)

/-- A device requested under domain `p.1` is offending when its live iommu_group
link cannot be read or differs from `p.1`, or its live vendor id cannot be read or
is not `10de`. -/
def offending (bus : Bus) (p : String × NvidiaGpuDevice) : Bool :=
  (match bus.readLink p.2.addr "iommu_group" with
    | none => true
    | some iommuGroup => decide (iommuGroup ≠ p.1)) ||
  (match bus.readIDFromFile p.2.addr "vendor" with
    | none => true
    | some vendorID => decide (vendorID ≠ "10de"))

/-- The CDI device handles the claim names for one container request. -/
def expectedHandles (inventory : GoMap (List NvidiaGpuDevice))
    (req : ContainerAllocateRequest) : List String :=
  req.DevicesIDs.flatMap
    (fun id => (mapGetD inventory id).map (fun dev => "nvidia.com/gpu=" ++ toString dev.index))

/-- An annotation helper that writes one key under the default prefix holding
the comma-separated device names, and a fixed correlation id. -/
def sampleLib : CdiLib where
  updateAnnotations := fun id devices =>
    .ok [("cdi.k8s.io/kata-xpu-device-plugin_" ++ id, ",".intercalate devices)]
  newUUID := fun _ => "120c8e49-a128-4186-bdbb-af37586bd602"

/-- The inventory `{"214": [{addr "0000:c1:00.0", index 0}]}`. -/
def sampleInventory : GoMap (List NvidiaGpuDevice) := [("214", [⟨"0000:c1:00.0", 0⟩])]

/-- A server as `createDevicePlugins` builds it for the sample inventory. -/
def samplePlugin : GenericDevicePlugin :=
  NewGenericDevicePlugin "GA100" "/dev/vfio/" [⟨"214", Healthy⟩]

/-- Calls of `healthCheck` that all succeed. -/
def watchCallsOk : WatchCalls := ⟨none, none, none, fun _ => none, none⟩

/-! ## CDI spec (`cdi/spec.go`) and its emitter -/

/-- The constant `cdi.CurrentVersion`. -/
def Cdi.CurrentVersion : String := "0.6.0"

/-- The constant `cdi.DefaultKind`. -/
def Cdi.DefaultKind : String := "nvidia.com/gpu"

/-- The constant `cdi.CdiK8SPrefix`. -/
def Cdi.CdiK8SPrefix : String := "cdi.k8s.io/"

/-- The struct `cdi.DeviceNode`. -/
structure Cdi.DeviceNode where
  Path : String
deriving DecidableEq, Repr

/-- The struct `cdi.ContainerEdits`. -/
structure Cdi.ContainerEdits where
  DeviceNodes : List Cdi.DeviceNode
deriving DecidableEq, Repr

/-- The struct `cdi.Device`. -/
structure Cdi.Device where
  Name : String
  Annotations : GoMap String
  ContainerEdits : Cdi.ContainerEdits
deriving DecidableEq, Repr

/-- The struct `cdi.CdiSpec`. -/
structure Cdi.CdiSpec where
  Version : String
  Kind : String
  Annotations : GoMap String
  Devices : List Cdi.Device
  ContainerEdits : Cdi.ContainerEdits
deriving DecidableEq, Repr

/-- The function `cdi.New`: the other fields hold their zero values. -/
def Cdi.New : Cdi.CdiSpec := ⟨Cdi.CurrentVersion, Cdi.DefaultKind, [], [], ⟨[]⟩⟩

/-- The method `CdiSpec.NewContainerEdits`; `none` is a nil `devNode`. -/
def Cdi.CdiSpec.NewContainerEdits (cs : Cdi.CdiSpec) (devNode : Option Cdi.DeviceNode) :
    Cdi.CdiSpec :=
  let devNodes : List Cdi.DeviceNode := []
  let devNodes :=
    match devNode with
    | some node => devNodes ++ [node]
    | none => devNodes
  { cs with ContainerEdits := ⟨devNodes⟩ }

/-- The method `CdiSpec.initSpec`: an empty slice and an empty map replace nil ones. -/
def Cdi.CdiSpec.initSpec (cs : Cdi.CdiSpec) : Cdi.CdiSpec :=
  let cs := if cs.Devices.length = 0 then { cs with Devices := [] } else cs
  if cs.Annotations.length = 0 then { cs with Annotations := [] } else cs

/-- The method `CdiSpec.NewDevice`. -/
def Cdi.CdiSpec.NewDevice (cs : Cdi.CdiSpec) (devName : String) (annotations : GoMap String)
    (devices : List Cdi.DeviceNode) : Cdi.CdiSpec :=
  let cs := cs.initSpec
  { cs with Devices := cs.Devices ++ [⟨devName, annotations, ⟨devices⟩⟩] }

/-- The body of the inner loop of `generateCDISpec` for device `dev` of domain
`devName`. -/
def addSpecDevice (devName : String) (cs : Cdi.CdiSpec) (dev : NvidiaGpuDevice) :
    Cdi.CdiSpec :=
  let annotations : GoMap String := [("attach-pci", "true")]
  let key := Cdi.CdiK8SPrefix ++ "vfio" ++ devName
  let value := Cdi.DefaultKind ++ "=" ++ toString dev.index
  let annotations := mapSet annotations key value
  let annotations := mapSet annotations "bdf" dev.addr
  let cdiDevs : List Cdi.DeviceNode := [] ++ [⟨"/dev/vfio/" ++ devName⟩]
  cs.NewDevice (toString dev.index) annotations cdiDevs

/-- The function `generateCDISpec`: the document handed to `Save`. -/
def generateCDISpec (iommuMap : GoMap (List NvidiaGpuDevice)) : Cdi.CdiSpec :=
  let cs := Cdi.New
  let cs := cs.NewContainerEdits none
  iommuMap.foldl (fun cs kv => kv.2.foldl (addSpecDevice kv.1) cs) cs

/-- The device entry the claim names for device `dev` of domain `d`. -/
def expectedSpecDevice (d : String) (dev : NvidiaGpuDevice) : Cdi.Device :=
  ⟨toString dev.index,
    [("attach-pci", "true"), ("cdi.k8s.io/vfio" ++ d, "nvidia.com/gpu=" ++ toString dev.index),
      ("bdf", dev.addr)],
    ⟨[⟨"/dev/vfio/" ++ d⟩]⟩⟩

/-- The groups that `qs` registers in `deviceMap`, in walk order: the groups of
the devices that are the first of their group. -/
def newGroups : List Qualified → List String
  | [] => []
  | q :: rest => if q.newModel.isSome then q.group :: newGroups rest else newGroups rest

/-! ## Device names from the catalog (`getDeviceName`) -/

/-- The constant `nvidiaVendorID`. -/
def nvidiaVendorID : String := "10de"

/-- Go's `strings.HasPrefix`. -/
def hasPrefix (s p : String) : Bool := p.data.isPrefixOf s.data

/-- Go's `unicode.IsSpace`: the white space of Latin-1 and the runes with the
`White_Space` property. -/
def isSpace (c : Char) : Bool :=
  decide ((9 ≤ c.toNat ∧ c.toNat ≤ 13) ∨ c.toNat = 0x20 ∨ c.toNat = 0x85 ∨ c.toNat = 0xA0 ∨
    c.toNat = 0x1680 ∨ (0x2000 ≤ c.toNat ∧ c.toNat ≤ 0x200A) ∨ c.toNat = 0x2028 ∨
    c.toNat = 0x2029 ∨ c.toNat = 0x202F ∨ c.toNat = 0x205F ∨ c.toNat = 0x3000)

/-- Go's `strings.TrimSpace`. -/
def trimSpace (s : List Char) : List Char :=
  ((s.dropWhile isSpace).reverse.dropWhile isSpace).reverse

/-- Go's `unicode.ToUpper`: `a`-`z` lose 32, the other ASCII runes stay, and the
runes above ASCII go through the Unicode case table, here the parameter `table`. -/
def toUpperRune (table : Char → Char) (c : Char) : Char :=
  if c.toNat ≤ 127 then
    if 97 ≤ c.toNat ∧ c.toNat ≤ 122 then Char.ofNat (c.toNat - 32) else c
  else table c

/-- Go's `strings.Replace(s, old, new, -1)` for one-character `old` and `new`. -/
def replaceChar (old new : Char) (s : List Char) : List Char :=
  s.map (fun c => if c = old then new else c)

/-- The class `\s` of Go's `regexp`: tab, newline, form feed, carriage return, space. -/
def isReSpace (c : Char) : Bool :=
  decide (c.toNat = 9 ∨ c.toNat = 10 ∨ c.toNat = 12 ∨ c.toNat = 13 ∨ c.toNat = 32)

/-- The replacement `regexp("\\s+").ReplaceAllString(s, "_")`: every maximal run of
`\s` becomes one underscore; `inRun` tells that the rune before was in a run. -/
def collapseSpaces : Bool → List Char → List Char
  | _, [] => []
  | inRun, c :: cs =>
    if isReSpace c then
      if inRun then collapseSpaces true cs else '_' :: collapseSpaces true cs
    else c :: collapseSpaces false cs

/-- The class `[a-zA-Z0-9_.]` whose complement the last replacement removes. -/
def isNameRune (c : Char) : Bool :=
  decide ((97 ≤ c.toNat ∧ c.toNat ≤ 122) ∨ (65 ≤ c.toNat ∧ c.toNat ≤ 90) ∨
    (48 ≤ c.toNat ∧ c.toNat ≤ 57) ∨ c = '_' ∨ c = '.')

/-- The statements of `getDeviceName` between the match of a line and `break`. -/
def displayName (table : Char → Char) (line pfx : String) : String :=
  let devpluginName := trimPrefix line pfx
  let devpluginName := trimSpace devpluginName.data
  let devpluginName := devpluginName.map (toUpperRune table)
  let devpluginName := replaceChar '/' '_' devpluginName
  let devpluginName := replaceChar '.' '_' devpluginName
  let devpluginName := collapseSpaces false devpluginName
  let devpluginName := devpluginName.filter isNameRune
  String.mk devpluginName

/-- The function `locateVendor` over the lines the scanner yields: the lines
after the first one that starts with `vendorID`, `none` when there is none. -/
def locateVendor (vendorID : String) : List String → Option (List String)
  | [] => none
  | line :: rest => if hasPrefix line vendorID then some rest else locateVendor vendorID rest

/-- The loop `for scanner.Scan()` of `getDeviceName`. -/
def findDevice (table : Char → Char) (pfx : String) : List String → String
  | [] => ""
  | line :: rest =>
    if hasPrefix line "#" then findDevice table pfx rest
    else if !hasPrefix line "\t" then ""
    else if !hasPrefix line pfx then findDevice table pfx rest
    else displayName table line pfx

/-- The function `getDeviceName`; `pciIds` holds the lines of the catalog file,
`none` when it cannot be opened. -/
def getDeviceName (table : Char → Char) (pciIds : Option (List String)) (deviceID : String) :
    String :=
  match pciIds with
  | none => ""
  | some lines =>
    match locateVendor nvidiaVendorID lines with
    | none => ""
    | some rest => findDevice table ("\t" ++ deviceID) rest

/-- Go's `path.Base` (standard library): the last element of the path, trailing
slashes removed; `.` for the empty path and `/` for a path of slashes only. -/
def pathBase (path : String) : String :=
  if path = "" then "."
  else
    match (splitSlash path.data).reverse.dropWhile (fun comp => comp.isEmpty) with
    | [] => "/"
    | last :: _ => String.mk last

/-! ## Process start (`InitiateDevicePlugin`) -/

/-- What `createDevicePlugins` reads from the host besides the scan: the Unicode
case table, the lines of the catalog file, and the outcome of the calls `Start`
makes for each server. -/
structure Host where
  upperTable : Char → Char
  pciIds : Option (List String)
  startCalls : GenericDevicePlugin → StartCalls

/-- The body of the loop of `createDevicePlugins` for model `k` with domains `v`,
up to the call of `startDevicePlugin`: what `Start` leaves behind. -/
def startModel (host : Host) (k : String) (v : List String) : StartResult :=
  let devs := v.map (fun dev => (⟨dev, Healthy⟩ : Device))
  let devpluginName := getDeviceName host.upperTable host.pciIds k
  let devpluginName := if devpluginName = "" then k else devpluginName
  let dp := NewGenericDevicePlugin devpluginName "/dev/vfio/" devs
  Start (host.startCalls dp) dp

/-- The loop of `createDevicePlugins` over `deviceMap`: the result of every call
of `startDevicePlugin`, and `devicePlugins`, the servers whose start returned nil. -/
def createDevicePlugins (host : Host) (deviceMap : GoMap (List String)) :
    List StartResult × List GenericDevicePlugin :=
  let started := deviceMap.map (fun kv => startModel host kv.1 kv.2)
  (started, (started.filter (fun r => r.err.isNone)).map (·.dpi))

/-- What `InitiateDevicePlugin` has done when it waits for the stop signal. -/
structure InitiateResult where
  scan : ScanState
  cdiSpec : Cdi.CdiSpec
  started : List StartResult
  devicePlugins : List GenericDevicePlugin
deriving DecidableEq, Repr

/-- The function `InitiateDevicePlugin`, up to the wait for the stop signal. -/
def InitiateDevicePlugin (host : Host) (bus : Bus) (entries : List WalkEntry) :
    InitiateResult :=
  let scan := createIommuDeviceMap bus entries
  let cdiSpec := generateCDISpec scan.iommuMap
  let plugins := createDevicePlugins host scan.deviceMap
  ⟨scan, cdiSpec, plugins.1, plugins.2⟩

/-- A host whose catalog names device `20b5`, whose case table is not needed for
it, and on which every server starts. -/
def sampleHost : Host where
  upperTable := fun c => c
  pciIds := some ["# PCI ids", "10de  NVIDIA Corporation", "\t1aef  GA102 High Definition Audio",
    "\t20b5  GA100 [A100 PCIe 80GB]", "\t\t10de 1533  A100 80GB", "10df  Emulex Corporation"]
  startCalls := fun _ => ⟨none, none, none, none⟩

/-- A walk that records one device and then reports an error. -/
def failingWalk : List WalkEntry :=
  [⟨"0000:c1:00.0", false, none⟩, ⟨"0000:c1:00.1", false, some "permission denied"⟩,
    ⟨"0000:3d:00.0", false, none⟩]

theorem mapGet?_mapSet_same {V : Type} (m : GoMap V) (k : String) (v : V) :
    mapGet? (mapSet m k v) k = some v := by
  induction m with
  | nil => simp [mapSet, mapGet?]
  | cons kv rest ih =>
    obtain ⟨k', v'⟩ := kv
    by_cases h : k' = k
    · simp [mapSet, mapGet?, h]
    · simp [mapSet, mapGet?, h, ih]

theorem mapGet?_mapSet_other {V : Type} (m : GoMap V) (k k' : String) (v : V) (h : k ≠ k') :
    mapGet? (mapSet m k v) k' = mapGet? m k' := by
  induction m with
  | nil => simp [mapSet, mapGet?, h]
  | cons kv rest ih =>
    obtain ⟨k₀, v₀⟩ := kv
    by_cases h₀ : k₀ = k
    · subst h₀
      simp [mapSet, mapGet?, h]
    · by_cases h₁ : k₀ = k'
      · subst h₁
        simp [mapSet, mapGet?, h₀]
      · simp [mapSet, mapGet?, h₀, h₁, ih]

theorem mapGetD_mapSet_same {V : Type} (m : GoMap (List V)) (k : String) (v : List V) :
    mapGetD (mapSet m k v) k = v := by
  simp [mapGetD, mapGet?_mapSet_same]

theorem mapGetD_mapSet_other {V : Type} (m : GoMap (List V)) (k k' : String) (v : List V)
    (h : k ≠ k') : mapGetD (mapSet m k v) k' = mapGetD m k' := by
  simp [mapGetD, mapGet?_mapSet_other m k k' v h]

theorem mapValues_mapSet_append {V : Type} (m : GoMap (List V)) (k : String) (d : V) :
    (mapValues (mapSet m k (mapGetD m k ++ [d]))).Perm (mapValues m ++ [d]) := by
  induction m with
  | nil => simp [mapSet, mapValues, mapGetD, mapGet?]
  | cons kv rest ih =>
    obtain ⟨k', vs⟩ := kv
    by_cases h : k' = k
    · simp only [mapSet, h, if_true, mapValues, mapGetD, mapGet?, Option.getD_some]
      rw [List.append_assoc, List.append_assoc]
      exact List.Perm.append_left vs List.perm_append_comm
    · have hD : mapGetD ((k', vs) :: rest) k = mapGetD rest k := by
        simp [mapGetD, mapGet?, h]
      simp only [mapSet, h, if_false, mapValues, hD]
      rw [List.append_assoc]
      exact List.Perm.append_left vs ih

/-! ## The definitions on sample values -/

theorem createIommuDeviceMap_sample :
    createIommuDeviceMap sampleBus sampleWalk =
      ⟨[("214", [⟨"0000:c1:00.0", 0⟩, ⟨"0000:c1:00.1", 1⟩])], [("20b5", ["214"])], 2⟩ ∧
    qualifying sampleBus [] sampleWalk =
      [⟨"214", "0000:c1:00.0", some "20b5"⟩, ⟨"214", "0000:c1:00.1", none⟩] := by
  decide

theorem filepathJoin_samples :
    filepathJoin "/dev/vfio/" "214" = "/dev/vfio/214" ∧
    filepathJoin "/dev/vfio" "214" = "/dev/vfio/214" ∧
    filepathJoin "/dev/vfio/" ".." = "/dev" ∧
    filepathJoin "a/../.." "b" = "../b" ∧
    filepathJoin "/.." "" = "/" ∧
    filepathJoin "" "" = "" ∧
    filepathJoin "./" "" = "." ∧
    filepathJoin "" "a//b/./c/" = "a/b/c" := by
  decide

/-! ## The scan in terms of its qualifying devices -/

theorem walkFn_eq_record (bus : Bus) (st : ScanState) (seen : List String) (e : WalkEntry)
    (hseen : ∀ g, g ∈ seen ↔ mapGet? st.iommuMap g ≠ none) (he : e.err = none) :
    walkFn bus st e = .ok ((qualify bus seen e).elim st (record st)) := by
  unfold walkFn qualify
  rw [he]
  cases hd : e.isDir with
  | true => simp
  | false =>
    cases hv : bus.readIDFromFile e.name "vendor" with
    | none => simp
    | some vendorID =>
      by_cases hv' : vendorID = "10de"
      · subst hv'
        cases hdr : bus.readLink e.name "driver" with
        | none => simp
        | some driver =>
          by_cases hdr' : driver = "vfio-pci"
          · subst hdr'
            cases hg : bus.readLink e.name "iommu_group" with
            | none => simp
            | some g =>
              cases hm : mapGet? st.iommuMap g with
              | some devs =>
                have : g ∈ seen := (hseen g).2 (by simp [hm])
                simp [this, record, hm]
              | none =>
                have : g ∉ seen := fun h => (hseen g).1 h hm
                cases hdev : bus.readIDFromFile e.name "device" with
                | none => simp [this, hm]
                | some m => simp [this, record, hm]
          · simp [hdr']
      · simp [hv']

theorem qualify_name (bus : Bus) (seen : List String) (e : WalkEntry) (q : Qualified)
    (h : qualify bus seen e = some q) : q.name = e.name := by
  unfold qualify at h
  split at h
  · split at h
    · simp at h
    · split at h
      · simp at h; rw [← h]
      · split at h
        · simp at h
        · simp at h; rw [← h]
  · simp at h

theorem record_keys (st : ScanState) (q : Qualified) (g : String) :
    mapGet? (record st q).iommuMap g ≠ none ↔ (g = q.group ∨ mapGet? st.iommuMap g ≠ none) := by
  have hmap : (record st q).iommuMap =
      mapSet st.iommuMap q.group (mapGetD st.iommuMap q.group ++ [⟨q.name, st.busIndex⟩]) := by
    unfold record appendDevice
    cases q.newModel <;> rfl
  rw [hmap]
  by_cases h : q.group = g
  · subst h
    simp [mapGet?_mapSet_same]
  · rw [mapGet?_mapSet_other _ _ _ _ h]
    constructor
    · intro h'; exact Or.inr h'
    · rintro (h' | h')
      · exact absurd h'.symm h
      · exact h'

theorem walk_eq_foldl (bus : Bus) (entries : List WalkEntry) (st : ScanState)
    (seen : List String) (hseen : ∀ g, g ∈ seen ↔ mapGet? st.iommuMap g ≠ none) :
    (walk bus entries st).1 = (qualifying bus seen entries).foldl record st := by
  induction entries generalizing st seen with
  | nil => simp [walk, qualifying]
  | cons e rest ih =>
    cases he : e.err with
    | some err => simp [walk, qualifying, walkFn, he]
    | none =>
      rw [walk, walkFn_eq_record bus st seen e hseen he]
      cases hq : qualify bus seen e with
      | none =>
        simp only [Option.elim, qualifying, he, Option.isSome_none, hq]
        simpa using ih st seen hseen
      | some q =>
        simp only [Option.elim, qualifying, he, Option.isSome_none, hq]
        have hseen' : ∀ g, g ∈ q.group :: seen ↔ mapGet? (record st q).iommuMap g ≠ none := by
          intro g
          rw [record_keys, List.mem_cons, hseen g]
        simpa using ih (record st q) (q.group :: seen) hseen'


theorem mem_mapKeys_iff {V : Type} (m : GoMap V) (k : String) :
    k ∈ mapKeys m ↔ mapGet? m k ≠ none := by
  induction m with
  | nil => simp [mapKeys, mapGet?]
  | cons kv rest ih =>
    obtain ⟨k', v⟩ := kv
    by_cases h : k' = k
    · simp [mapKeys, mapGet?, h]
    · have h' : ¬ k = k' := fun h₀ => h h₀.symm
      simpa [mapKeys, mapGet?, h, h'] using ih

theorem record_iommuMap (st : ScanState) (q : Qualified) :
    (record st q).iommuMap =
      mapSet st.iommuMap q.group (mapGetD st.iommuMap q.group ++ [⟨q.name, st.busIndex⟩]) := by
  unfold record appendDevice
  cases q.newModel <;> rfl

theorem record_busIndex (st : ScanState) (q : Qualified) :
    (record st q).busIndex = st.busIndex + 1 := by
  unfold record appendDevice
  cases q.newModel <;> rfl

theorem record_deviceMap (st : ScanState) (q : Qualified) (m : String) :
    mapGetD (record st q).deviceMap m =
      mapGetD st.deviceMap m ++ (if q.newModel = some m then [q.group] else []) := by
  unfold record appendDevice
  cases hq : q.newModel with
  | none => simp
  | some m' =>
    by_cases h : m' = m
    · subst h
      simp [mapGetD_mapSet_same]
    · simp [mapGetD_mapSet_other _ _ _ _ h, h]

theorem foldl_record_busIndex (qs : List Qualified) (st : ScanState) :
    (qs.foldl record st).busIndex = st.busIndex + qs.length := by
  induction qs generalizing st with
  | nil => simp
  | cons q rest ih =>
    simp only [List.foldl_cons, List.length_cons]
    rw [ih, record_busIndex]
    omega

theorem foldl_record_iommuMap (qs : List Qualified) (st : ScanState) (g : String) :
    mapGetD (qs.foldl record st).iommuMap g =
      mapGetD st.iommuMap g ++ devicesOf g st.busIndex qs := by
  induction qs generalizing st with
  | nil => simp [devicesOf]
  | cons q rest ih =>
    simp only [List.foldl_cons]
    rw [ih, record_busIndex, record_iommuMap]
    by_cases h : q.group = g
    · subst h
      simp [devicesOf, mapGetD_mapSet_same]
    · simp [devicesOf, h, mapGetD_mapSet_other _ _ _ _ h]

theorem foldl_record_values (qs : List Qualified) (st : ScanState) :
    (mapValues (qs.foldl record st).iommuMap).Perm
      (mapValues st.iommuMap ++ indexed st.busIndex qs) := by
  induction qs generalizing st with
  | nil => simp [indexed]
  | cons q rest ih =>
    simp only [List.foldl_cons]
    refine (ih (record st q)).trans ?_
    rw [record_busIndex, record_iommuMap]
    simp only [indexed]
    have h := mapValues_mapSet_append st.iommuMap q.group ⟨q.name, st.busIndex⟩
    refine (List.Perm.append_right _ h).trans ?_
    simp

theorem foldl_record_deviceMap (qs : List Qualified) (st : ScanState) (m : String) :
    mapGetD (qs.foldl record st).deviceMap m = mapGetD st.deviceMap m ++ groupsOf m qs := by
  induction qs generalizing st with
  | nil => simp [groupsOf]
  | cons q rest ih =>
    simp only [List.foldl_cons]
    rw [ih, record_deviceMap]
    by_cases h : q.newModel = some m
    · simp [groupsOf, h]
    · simp [groupsOf, h]

theorem foldl_record_keys (qs : List Qualified) (st : ScanState) (g : String) :
    mapGet? (qs.foldl record st).iommuMap g ≠ none ↔
      (mapGet? st.iommuMap g ≠ none ∨ g ∈ qs.map (·.group)) := by
  induction qs generalizing st with
  | nil => simp
  | cons q rest ih =>
    simp only [List.foldl_cons, List.map_cons, List.mem_cons]
    rw [ih, record_keys]
    tauto

theorem indexed_addr (qs : List Qualified) (k : Nat) :
    (indexed k qs).map (·.addr) = qs.map (·.name) := by
  induction qs generalizing k with
  | nil => simp [indexed]
  | cons q rest ih => simp [indexed, ih]

theorem indexed_index (qs : List Qualified) (k : Nat) :
    (indexed k qs).map (·.index) = List.range' k qs.length := by
  induction qs generalizing k with
  | nil => simp [indexed]
  | cons q rest ih => simp [indexed, ih, List.range']

theorem devicesOf_sublist (g : String) (qs : List Qualified) (k : Nat) :
    (devicesOf g k qs).Sublist (indexed k qs) := by
  induction qs generalizing k with
  | nil => simp [devicesOf, indexed]
  | cons q rest ih =>
    by_cases h : q.group = g
    · simp only [devicesOf, h, if_true, indexed]
      exact (ih (k + 1)).cons₂ _
    · simp only [devicesOf, h, if_false, indexed]
      exact (ih (k + 1)).cons _

theorem mem_devicesOf (qs : List Qualified) (k i : Nat) (q : Qualified)
    (h : qs[i]? = some q) : ⟨q.name, k + i⟩ ∈ devicesOf q.group k qs := by
  induction qs generalizing k i with
  | nil => simp at h
  | cons q' rest ih =>
    cases i with
    | zero =>
      simp at h
      subst h
      simp [devicesOf]
    | succ i =>
      simp only [List.getElem?_cons_succ] at h
      have h' := ih (k + 1) i h
      have e : k + 1 + i = k + (i + 1) := by omega
      rw [e] at h'
      by_cases hg : q'.group = q.group
      · simp only [devicesOf, hg, if_true]
        exact List.mem_cons_of_mem _ h'
      · simp only [devicesOf, hg, if_false]
        exact h'


/-! ## Facts about the qualifying devices -/

theorem qualify_group (bus : Bus) (seen : List String) (e : WalkEntry) (q : Qualified)
    (h : qualify bus seen e = some q) :
    bus.readLink e.name "iommu_group" = some q.group := by
  unfold qualify at h
  split at h
  · split at h
    · simp at h
    · rename_i g hg
      split at h
      · simp at h; rw [← h]; exact hg
      · split at h
        · simp at h
        · simp at h; rw [← h]; exact hg
  · simp at h

theorem qualify_newModel (bus : Bus) (seen : List String) (e : WalkEntry) (q : Qualified)
    (m : String) (h : qualify bus seen e = some q) (hm : q.newModel = some m) :
    q.group ∉ seen := by
  unfold qualify at h
  split at h
  · split at h
    · simp at h
    · split at h
      · simp at h; rw [← h] at hm; simp at hm
      · rename_i hns
        split at h
        · simp at h
        · simp at h; rw [← h]; exact hns
  · simp at h

theorem qualifying_name_mem (bus : Bus) (entries : List WalkEntry) (seen : List String)
    (q : Qualified) (h : q ∈ qualifying bus seen entries) :
    q.name ∈ entries.map (·.name) := by
  induction entries generalizing seen with
  | nil => simp [qualifying] at h
  | cons e rest ih =>
    unfold qualifying at h
    split at h
    · simp at h
    · split at h
      · exact List.mem_cons_of_mem _ (ih seen h)
      · rename_i q' hq'
        rcases List.mem_cons.1 h with h | h
        · subst h
          rw [qualify_name bus seen e q hq']
          simp
        · exact List.mem_cons_of_mem _ (ih _ h)

theorem qualifying_newModel (bus : Bus) (entries : List WalkEntry) (seen : List String)
    (q : Qualified) (m : String) (h : q ∈ qualifying bus seen entries)
    (hm : q.newModel = some m) : q.group ∉ seen := by
  induction entries generalizing seen with
  | nil => simp [qualifying] at h
  | cons e rest ih =>
    unfold qualifying at h
    split at h
    · simp at h
    · split at h
      · exact ih seen h
      · rename_i q' hq'
        rcases List.mem_cons.1 h with h | h
        · subst h
          exact qualify_newModel bus seen e q m hq' hm
        · exact fun hs => ih _ h (List.mem_cons_of_mem _ hs)

/-! ## Walking in two parts -/

theorem walkFn_ok (bus : Bus) (st : ScanState) (e : WalkEntry) (he : e.err = none) :
    walkFn bus st e = .ok ((qualify bus (mapKeys st.iommuMap) e).elim st (record st)) :=
  walkFn_eq_record bus st (mapKeys st.iommuMap) e (mem_mapKeys_iff st.iommuMap) he

theorem walk_foldl (bus : Bus) (entries : List WalkEntry) (st : ScanState) :
    (walk bus entries st).1 =
      (qualifying bus (mapKeys st.iommuMap) entries).foldl record st :=
  walk_eq_foldl bus entries st (mapKeys st.iommuMap) (mem_mapKeys_iff st.iommuMap)

theorem walk_append (bus : Bus) (pre rest : List WalkEntry) (st : ScanState)
    (hpre : ∀ e ∈ pre, e.err = none) :
    walk bus (pre ++ rest) st = walk bus rest (walk bus pre st).1 := by
  induction pre generalizing st with
  | nil => simp [walk]
  | cons e pre ih =>
    have he : e.err = none := hpre e (by simp)
    simp only [List.cons_append, walk, walkFn_ok bus st e he]
    exact ih _ (fun e' he' => hpre e' (List.mem_cons_of_mem _ he'))

theorem walk_cons_ok (bus : Bus) (e : WalkEntry) (rest : List WalkEntry) (st : ScanState)
    (he : e.err = none) :
    walk bus (e :: rest) st =
      walk bus rest ((qualify bus (mapKeys st.iommuMap) e).elim st (record st)) := by
  simp only [walk, walkFn_ok bus st e he]

theorem indexed_countP_zero (qs : List Qualified) (k : Nat) (n : String)
    (h : ∀ q ∈ qs, q.name ≠ n) :
    (indexed k qs).countP (fun d => decide (d.addr = n)) = 0 := by
  rw [List.countP_eq_zero]
  intro d hd
  have : d.addr ∈ (indexed k qs).map (·.addr) := List.mem_map_of_mem _ hd
  rw [indexed_addr] at this
  obtain ⟨q, hq, hqn⟩ := List.mem_map.1 this
  have := h q hq
  simp only [decide_eq_true_eq]
  rw [← hqn]
  exact this

theorem walk_countP_values (bus : Bus) (entries : List WalkEntry) (st : ScanState)
    (n : String) (h : ∀ e ∈ entries, e.name ≠ n) :
    (mapValues (walk bus entries st).1.iommuMap).countP (fun d => decide (d.addr = n)) =
      (mapValues st.iommuMap).countP (fun d => decide (d.addr = n)) := by
  rw [walk_foldl, (foldl_record_values _ st).countP_eq, List.countP_append,
    indexed_countP_zero]
  · rfl
  · intro q hq hn
    obtain ⟨e, he, hen⟩ := List.mem_map.1 (qualifying_name_mem bus entries _ q hq)
    exact h e he (hen.trans hn)

theorem walk_countP_group (bus : Bus) (entries : List WalkEntry) (st : ScanState)
    (n g : String) (h : ∀ e ∈ entries, e.name ≠ n) :
    (mapGetD (walk bus entries st).1.iommuMap g).countP (fun d => decide (d.addr = n)) =
      (mapGetD st.iommuMap g).countP (fun d => decide (d.addr = n)) := by
  rw [walk_foldl, foldl_record_iommuMap, List.countP_append]
  have h0 : (indexed st.busIndex (qualifying bus (mapKeys st.iommuMap) entries)).countP
      (fun d => decide (d.addr = n)) = 0 := by
    apply indexed_countP_zero
    intro q hq hn
    obtain ⟨e, he, hen⟩ := List.mem_map.1 (qualifying_name_mem bus entries _ q hq)
    exact h e he (hen.trans hn)
  have := (devicesOf_sublist g (qualifying bus (mapKeys st.iommuMap) entries)
    st.busIndex).countP_le (fun d => decide (d.addr = n))
  omega

theorem mapKeys_mapSet_nodup {V : Type} (m : GoMap V) (k : String) (v : V)
    (h : (mapKeys m).Nodup) : (mapKeys (mapSet m k v)).Nodup := by
  have key : ∀ m : GoMap V, ∀ x, x ∈ mapKeys (mapSet m k v) → x = k ∨ x ∈ mapKeys m := by
    intro m
    induction m with
    | nil => intro x hx; simp [mapSet, mapKeys] at hx; exact Or.inl hx
    | cons kv rest ih =>
      obtain ⟨k', v'⟩ := kv
      intro x hx
      by_cases hk : k' = k
      · simp only [mapSet, hk, if_true, mapKeys, List.map_cons, List.mem_cons] at hx ⊢
        rcases hx with hx | hx
        · exact Or.inl hx
        · exact Or.inr (Or.inr hx)
      · simp only [mapSet, hk, if_false, mapKeys, List.map_cons, List.mem_cons] at hx ⊢
        rcases hx with hx | hx
        · exact Or.inr (Or.inl hx)
        · rcases ih x hx with h' | h'
          · exact Or.inl h'
          · exact Or.inr (Or.inr h')
  induction m with
  | nil => simp [mapSet, mapKeys]
  | cons kv rest ih =>
    obtain ⟨k', v'⟩ := kv
    simp only [mapKeys, List.map_cons, List.nodup_cons] at h
    by_cases hk : k' = k
    · simp only [mapSet, hk, if_true, mapKeys, List.map_cons, List.nodup_cons]
      rw [hk] at h
      exact h
    · simp only [mapSet, hk, if_false, mapKeys, List.map_cons, List.nodup_cons]
      refine ⟨fun hx => ?_, ih h.2⟩
      rcases key rest k' hx with h' | h'
      · exact hk h'
      · exact h.1 h'

theorem foldl_record_nodup (qs : List Qualified) (st : ScanState)
    (h : (mapKeys st.iommuMap).Nodup) : (mapKeys (qs.foldl record st).iommuMap).Nodup := by
  induction qs generalizing st with
  | nil => simpa using h
  | cons q rest ih =>
    simp only [List.foldl_cons]
    apply ih
    rw [record_iommuMap]
    exact mapKeys_mapSet_nodup _ _ _ h


theorem mem_groupsOf (m g : String) (qs : List Qualified) :
    g ∈ groupsOf m qs ↔ ∃ q ∈ qs, q.newModel = some m ∧ q.group = g := by
  induction qs with
  | nil => simp [groupsOf]
  | cons q rest ih =>
    by_cases h : q.newModel = some m
    · simp only [groupsOf, h, if_true, List.mem_cons, ih]
      constructor
      · rintro (h' | ⟨q', hq', h'⟩)
        · exact ⟨q, Or.inl rfl, h, h'.symm⟩
        · exact ⟨q', Or.inr hq', h'⟩
      · rintro ⟨q', hq' | hq', h'⟩
        · subst hq'; exact Or.inl h'.2.symm
        · exact Or.inr ⟨q', hq', h'⟩
    · simp only [groupsOf, h, if_false, List.mem_cons, ih]
      constructor
      · rintro ⟨q', hq', h'⟩
        exact ⟨q', Or.inr hq', h'⟩
      · rintro ⟨q', hq' | hq', h'⟩
        · subst hq'; exact absurd h'.1 h
        · exact ⟨q', hq', h'⟩

theorem walk_deviceMap_frozen (bus : Bus) (entries : List WalkEntry) (st : ScanState)
    (g m : String) (hg : mapGet? st.iommuMap g ≠ none) :
    g ∈ mapGetD (walk bus entries st).1.deviceMap m ↔ g ∈ mapGetD st.deviceMap m := by
  rw [walk_foldl, foldl_record_deviceMap, List.mem_append]
  constructor
  · rintro (h | h)
    · exact h
    · obtain ⟨q, hq, hm, hqg⟩ := (mem_groupsOf m g _).1 h
      have := qualifying_newModel bus entries _ q m hq hm
      rw [hqg, mem_mapKeys_iff] at this
      exact absurd hg this
  · exact Or.inl

theorem walk_group_mono (bus : Bus) (entries : List WalkEntry) (st : ScanState)
    (g : String) (d : NvidiaGpuDevice) (h : d ∈ mapGetD st.iommuMap g) :
    d ∈ mapGetD (walk bus entries st).1.iommuMap g := by
  rw [walk_foldl, foldl_record_iommuMap]
  exact List.mem_append_left _ h

theorem walk_keys_mono (bus : Bus) (entries : List WalkEntry) (st : ScanState)
    (g : String) (h : mapGet? st.iommuMap g ≠ none) :
    mapGet? (walk bus entries st).1.iommuMap g ≠ none := by
  rw [walk_foldl, foldl_record_keys]
  exact Or.inl h

theorem createIommuDeviceMap_listed_recorded (bus : Bus) (entries : List WalkEntry)
    (g m : String) (h : g ∈ mapGetD (createIommuDeviceMap bus entries).deviceMap m) :
    mapGet? (createIommuDeviceMap bus entries).iommuMap g ≠ none := by
  unfold createIommuDeviceMap at h ⊢
  rw [walk_foldl] at h ⊢
  rw [foldl_record_deviceMap] at h
  rw [foldl_record_keys]
  have h' : g ∈ groupsOf m (qualifying bus (mapKeys ScanState.init.iommuMap) entries) := by
    simpa [mapGetD, mapGet?, ScanState.init] using h
  obtain ⟨q, hq, -, hqg⟩ := (mem_groupsOf m g _).1 h'
  exact Or.inr (List.mem_map.2 ⟨q, hq, hqg⟩)

theorem record_group_mem (st : ScanState) (q : Qualified) :
    (⟨q.name, st.busIndex⟩ : NvidiaGpuDevice) ∈ mapGetD (record st q).iommuMap q.group := by
  rw [record_iommuMap, mapGetD_mapSet_same]
  simp


/-! ## C1-C3: the bus scan -/

theorem createIommuDeviceMap_append (bus : Bus) (pre : List WalkEntry) (e : WalkEntry)
    (post : List WalkEntry) (hpre : ∀ x ∈ pre, x.err = none) (he : e.err = none) :
    createIommuDeviceMap bus (pre ++ e :: post) =
      (walk bus post
        ((qualify bus (mapKeys (createIommuDeviceMap bus pre).iommuMap) e).elim
          (createIommuDeviceMap bus pre) (record (createIommuDeviceMap bus pre)))).1 := by
  unfold createIommuDeviceMap
  rw [walk_append bus pre _ _ hpre, walk_cons_ok bus e post _ he]

theorem createIommuDeviceMap_countP_zero (bus : Bus) (pre : List WalkEntry) (n : String)
    (h : ∀ x ∈ pre, x.name ≠ n) :
    (mapValues (createIommuDeviceMap bus pre).iommuMap).countP (fun d => decide (d.addr = n)) = 0
    ∧ ∀ g, (mapGetD (createIommuDeviceMap bus pre).iommuMap g).countP
        (fun d => decide (d.addr = n)) = 0 := by
  unfold createIommuDeviceMap
  refine ⟨?_, fun g => ?_⟩
  · rw [walk_countP_values bus pre _ n h]
    simp [ScanState.init, mapValues]
  · rw [walk_countP_group bus pre _ n g h]
    simp [ScanState.init, mapGetD, mapGet?]

/-- C1: on a walk over entries with pairwise distinct names and no walk error, the
group keys of `iommuMap` are pairwise distinct, every stored device is the address
of a walked entry, and for every entry `e` of the walk (with `pre` the entries
visited before it): if `e` qualifies as a device (not a directory, vendor `10de`,
driver `vfio-pci`, iommu_group resolves to `q.group`, and the device file reads
when that group is not yet recorded after `pre`), then exactly one stored device
carries its address across all lists, and it sits in the list keyed by the group
it resolved to; if `e` does not qualify, no stored device carries its address. -/
theorem createIommuDeviceMap_partition (bus : Bus) (entries : List WalkEntry)
    (hnames : (entries.map (·.name)).Nodup) (herr : ∀ e ∈ entries, e.err = none) :
    (mapKeys (createIommuDeviceMap bus entries).iommuMap).Nodup ∧
    (∀ d ∈ mapValues (createIommuDeviceMap bus entries).iommuMap,
      ∃ e ∈ entries, e.name = d.addr) ∧
    ∀ pre e post, entries = pre ++ e :: post →
      (∀ q, qualify bus (mapKeys (createIommuDeviceMap bus pre).iommuMap) e = some q →
        bus.readLink e.name "iommu_group" = some q.group ∧
        (mapGetD (createIommuDeviceMap bus entries).iommuMap q.group).countP
          (fun d => decide (d.addr = e.name)) = 1 ∧
        (mapValues (createIommuDeviceMap bus entries).iommuMap).countP
          (fun d => decide (d.addr = e.name)) = 1) ∧
      (qualify bus (mapKeys (createIommuDeviceMap bus pre).iommuMap) e = none →
        ∀ d ∈ mapValues (createIommuDeviceMap bus entries).iommuMap, d.addr ≠ e.name) := by
  refine ⟨?_, ?_, ?_⟩
  · unfold createIommuDeviceMap
    rw [walk_foldl]
    exact foldl_record_nodup _ _ (by simp [ScanState.init, mapKeys])
  · intro d hd
    unfold createIommuDeviceMap at hd
    rw [walk_foldl] at hd
    have hd' := (foldl_record_values _ _).subset hd
    simp only [ScanState.init, mapValues, List.nil_append] at hd'
    have : d.addr ∈ (indexed 0 (qualifying bus (mapKeys ([] : GoMap (List NvidiaGpuDevice)))
        entries)).map (·.addr) := List.mem_map_of_mem _ hd'
    rw [indexed_addr] at this
    obtain ⟨q, hq, hqn⟩ := List.mem_map.1 this
    obtain ⟨e, he, hen⟩ := List.mem_map.1 (qualifying_name_mem bus entries _ q hq)
    exact ⟨e, he, hen.trans hqn⟩
  · intro pre e post hsplit
    subst hsplit
    have hpre : ∀ x ∈ pre, x.err = none := fun x hx => herr x (by simp [hx])
    have he : e.err = none := herr e (by simp)
    rw [List.map_append, List.map_cons, List.nodup_append] at hnames
    obtain ⟨-, hn₂, hdisj⟩ := hnames
    have hpre_ne : ∀ x ∈ pre, x.name ≠ e.name := by
      intro x hx hxe
      exact hdisj (List.mem_map_of_mem _ hx) (by simp [hxe])
    have hpost_ne : ∀ x ∈ post, x.name ≠ e.name := by
      intro x hx hxe
      rw [List.nodup_cons] at hn₂
      exact hn₂.1 (by rw [← hxe]; exact List.mem_map_of_mem _ hx)
    obtain ⟨hz, hzg⟩ := createIommuDeviceMap_countP_zero bus pre e.name hpre_ne
    rw [createIommuDeviceMap_append bus pre e post hpre he]
    refine ⟨fun q hq => ?_, fun hq => ?_⟩
    · have hname := qualify_name bus _ e q hq
      refine ⟨qualify_group bus _ e q hq, ?_, ?_⟩
      · rw [hq, Option.elim, walk_countP_group bus post _ e.name q.group hpost_ne,
          record_iommuMap, mapGetD_mapSet_same, List.countP_append, hzg]
        simp [hname]
      · rw [hq, Option.elim, walk_countP_values bus post _ e.name hpost_ne]
        have hp := foldl_record_values [q] (createIommuDeviceMap bus pre)
        simp only [List.foldl_cons, List.foldl_nil] at hp
        rw [hp.countP_eq, List.countP_append, hz]
        simp [indexed, hname]
    · rw [hq, Option.elim]
      intro d hd hda
      have h0 : (mapValues (walk bus post (createIommuDeviceMap bus pre)).1.iommuMap).countP
          (fun d => decide (d.addr = e.name)) = 0 := by
        rw [walk_countP_values bus post _ e.name hpost_ne]
        exact hz
      rw [List.countP_eq_zero] at h0
      exact h0 d hd (by simp [hda])

/-- C1 at the sample walk: the device at `0000:c1:00.1`, visited after
`0000:c1:00.0` recorded group 214, occurs exactly once across all lists. -/
theorem createIommuDeviceMap_partition_witness :
    (sampleWalk.map (·.name)).Nodup ∧ (∀ e ∈ sampleWalk, e.err = none) ∧
    (mapValues (createIommuDeviceMap sampleBus sampleWalk).iommuMap).countP
      (fun d => decide (d.addr = "0000:c1:00.1")) = 1 :=
  ⟨by decide, by decide,
    (((createIommuDeviceMap_partition sampleBus sampleWalk (by decide) (by decide)).2.2
      (sampleWalk.take 4) ⟨"0000:c1:00.1", false, none⟩ [] (by decide)).1
        ⟨"214", "0000:c1:00.1", none⟩ (by decide)).2.2⟩


/-- C2: with `qs` the qualifying devices of the walk in walk order, the `k`-th of
them (counting from 0) is stored in its group with index `k`; the stored devices
are exactly these, so their indices are a rearrangement of `0, ..., n-1` for
`n = qs.length` and pairwise distinct; and the counter ends at `n` (entries that
are skipped consume no index). -/
theorem createIommuDeviceMap_indices (bus : Bus) (entries : List WalkEntry) :
    (∀ k q, (qualifying bus [] entries)[k]? = some q →
      (⟨q.name, k⟩ : NvidiaGpuDevice) ∈
        mapGetD (createIommuDeviceMap bus entries).iommuMap q.group) ∧
    (mapValues (createIommuDeviceMap bus entries).iommuMap).Perm
      (indexed 0 (qualifying bus [] entries)) ∧
    ((mapValues (createIommuDeviceMap bus entries).iommuMap).map (·.index)).Perm
      (List.range (qualifying bus [] entries).length) ∧
    ((mapValues (createIommuDeviceMap bus entries).iommuMap).map (·.index)).Nodup ∧
    (createIommuDeviceMap bus entries).busIndex = (qualifying bus [] entries).length := by
  have hfold : createIommuDeviceMap bus entries =
      (qualifying bus [] entries).foldl record ScanState.init := by
    unfold createIommuDeviceMap
    rw [walk_foldl]
    rfl
  have hperm : (mapValues (createIommuDeviceMap bus entries).iommuMap).Perm
      (indexed 0 (qualifying bus [] entries)) := by
    rw [hfold]
    simpa [ScanState.init, mapValues] using
      foldl_record_values (qualifying bus [] entries) ScanState.init
  have hidx : ((mapValues (createIommuDeviceMap bus entries).iommuMap).map (·.index)).Perm
      (List.range (qualifying bus [] entries).length) := by
    have := hperm.map (·.index)
    rwa [indexed_index, ← List.range_eq_range'] at this
  refine ⟨?_, hperm, hidx, ?_, ?_⟩
  · intro k q hq
    rw [hfold, foldl_record_iommuMap]
    have := mem_devicesOf (qualifying bus [] entries) 0 k q hq
    simp only [Nat.zero_add] at this
    exact List.mem_append_right _ this
  · exact hidx.nodup_iff.2 (List.nodup_range _)
  · rw [hfold, foldl_record_busIndex]
    simp [ScanState.init]

/-- C3: let `e₁` be the first device recorded in group `g` (all of `pre` is visited
and leaves `g` unrecorded) with device id `m₁`, and let a later visited device `e₂`
resolve to the same group and read a different device id `m₂`. Then after the scan
`g` is listed in `deviceMap` under `m₁`, not under `m₂` nor under any other id, and
both devices are stored in `iommuMap` under `g`. -/
theorem createIommuDeviceMap_first_model_wins (bus : Bus) (pre mid post : List WalkEntry)
    (e₁ e₂ : WalkEntry) (g m₁ m₂ : String)
    (hpre : ∀ e ∈ pre, e.err = none) (hmid : ∀ e ∈ mid, e.err = none)
    (h₁ : e₁.err = none ∧ e₁.isDir = false ∧
      bus.readIDFromFile e₁.name "vendor" = some "10de" ∧
      bus.readLink e₁.name "driver" = some "vfio-pci" ∧
      bus.readLink e₁.name "iommu_group" = some g ∧
      bus.readIDFromFile e₁.name "device" = some m₁)
    (h₂ : e₂.err = none ∧ e₂.isDir = false ∧
      bus.readIDFromFile e₂.name "vendor" = some "10de" ∧
      bus.readLink e₂.name "driver" = some "vfio-pci" ∧
      bus.readLink e₂.name "iommu_group" = some g ∧
      bus.readIDFromFile e₂.name "device" = some m₂)
    (hfirst : mapGet? (createIommuDeviceMap bus pre).iommuMap g = none)
    (hne : m₁ ≠ m₂) :
    g ∈ mapGetD (createIommuDeviceMap bus (pre ++ e₁ :: (mid ++ e₂ :: post))).deviceMap m₁ ∧
    g ∉ mapGetD (createIommuDeviceMap bus (pre ++ e₁ :: (mid ++ e₂ :: post))).deviceMap m₂ ∧
    (∀ m, g ∈ mapGetD (createIommuDeviceMap bus (pre ++ e₁ :: (mid ++ e₂ :: post))).deviceMap m →
      m = m₁) ∧
    (∃ d ∈ mapGetD (createIommuDeviceMap bus (pre ++ e₁ :: (mid ++ e₂ :: post))).iommuMap g,
      d.addr = e₁.name) ∧
    (∃ d ∈ mapGetD (createIommuDeviceMap bus (pre ++ e₁ :: (mid ++ e₂ :: post))).iommuMap g,
      d.addr = e₂.name) := by
  obtain ⟨he₁, hd₁, hv₁, hdr₁, hg₁, hm₁⟩ := h₁
  obtain ⟨he₂, hd₂, hv₂, hdr₂, hg₂, hm₂⟩ := h₂
  have hq₁ : qualify bus (mapKeys (createIommuDeviceMap bus pre).iommuMap) e₁ =
      some ⟨g, e₁.name, some m₁⟩ := by
    have : g ∉ mapKeys (createIommuDeviceMap bus pre).iommuMap := by
      rw [mem_mapKeys_iff]; simp [hfirst]
    simp [qualify, hd₁, hv₁, hdr₁, hg₁, hm₁, this]
  rw [createIommuDeviceMap_append bus pre e₁ _ hpre he₁, hq₁, Option.elim,
    walk_append bus mid _ _ hmid]
  -- the state once `e₁` is recorded, and the state when `e₂` is visited
  generalize hst₂ : record (createIommuDeviceMap bus pre) ⟨g, e₁.name, some m₁⟩ = st₂
  have hkey₂ : mapGet? st₂.iommuMap g ≠ none := by
    rw [← hst₂, record_keys]; exact Or.inl rfl
  have hdev₂ : ∀ m, g ∈ mapGetD st₂.deviceMap m ↔ m = m₁ := by
    intro m
    rw [← hst₂, record_deviceMap]
    have hnot : g ∉ mapGetD (createIommuDeviceMap bus pre).deviceMap m := fun h =>
      createIommuDeviceMap_listed_recorded bus pre g m h hfirst
    by_cases hm : m₁ = m
    · subst hm; simp
    · have hm' : ¬ m = m₁ := fun h => hm h.symm
      simp [hm, hm', hnot]
  have hmem₂ : (⟨e₁.name, (createIommuDeviceMap bus pre).busIndex⟩ : NvidiaGpuDevice) ∈
      mapGetD st₂.iommuMap g := by
    rw [← hst₂]
    exact record_group_mem (createIommuDeviceMap bus pre) ⟨g, e₁.name, some m₁⟩
  generalize hst₃ : (walk bus mid st₂).1 = st₃
  have hkey₃ : mapGet? st₃.iommuMap g ≠ none := by
    rw [← hst₃]; exact walk_keys_mono bus mid st₂ g hkey₂
  have hq₂ : qualify bus (mapKeys st₃.iommuMap) e₂ = some ⟨g, e₂.name, none⟩ := by
    have : g ∈ mapKeys st₃.iommuMap := (mem_mapKeys_iff _ _).2 hkey₃
    simp [qualify, hd₂, hv₂, hdr₂, hg₂, this]
  rw [walk_cons_ok bus e₂ post st₃ he₂, hq₂, Option.elim]
  have hkey₄ : mapGet? (record st₃ ⟨g, e₂.name, none⟩).iommuMap g ≠ none := by
    rw [record_keys]; exact Or.inl rfl
  have hdev : ∀ m, g ∈ mapGetD
      (walk bus post (record st₃ ⟨g, e₂.name, none⟩)).1.deviceMap m ↔ m = m₁ := by
    intro m
    rw [walk_deviceMap_frozen bus post _ g m hkey₄, record_deviceMap]
    simp only [reduceCtorEq, if_false, List.append_nil]
    rw [← hst₃, walk_deviceMap_frozen bus mid st₂ g m hkey₂]
    exact hdev₂ m
  refine ⟨(hdev m₁).2 rfl, fun h => hne ((hdev m₂).1 h).symm, fun m h => (hdev m).1 h,
    ⟨⟨e₁.name, (createIommuDeviceMap bus pre).busIndex⟩, ?_, rfl⟩,
    ⟨⟨e₂.name, st₃.busIndex⟩, ?_, rfl⟩⟩
  · apply walk_group_mono
    rw [record_iommuMap, mapGetD_mapSet_same]
    apply List.mem_append_left
    rw [← hst₃]
    exact walk_group_mono bus mid st₂ g _ hmem₂
  · apply walk_group_mono
    exact record_group_mem st₃ ⟨g, e₂.name, none⟩

/-- C3 at the sample walk: group 214 is listed under `20b5`, the device id of
`0000:c1:00.0`, and not under `1aef`, the device id of `0000:c1:00.1`. -/
theorem createIommuDeviceMap_first_model_wins_witness :
    "214" ∈ mapGetD (createIommuDeviceMap sampleBus sampleWalk).deviceMap "20b5" ∧
    "214" ∉ mapGetD (createIommuDeviceMap sampleBus sampleWalk).deviceMap "1aef" :=
  have h := createIommuDeviceMap_first_model_wins sampleBus (sampleWalk.take 3) [] []
    ⟨"0000:c1:00.0", false, none⟩ ⟨"0000:c1:00.1", false, none⟩ "214" "20b5" "1aef"
    (by decide) (by decide) (by decide) (by decide) (by decide) (by decide)
  ⟨h.1, h.2.1⟩


/-! ## C4-C7: allocation -/

theorem offending_iff (bus : Bus) (id : String) (dev : NvidiaGpuDevice) :
    offending bus (id, dev) = true ↔
      (bus.readLink dev.addr "iommu_group" ≠ some id ∨
        bus.readIDFromFile dev.addr "vendor" ≠ some "10de") := by
  unfold offending
  cases bus.readLink dev.addr "iommu_group" <;> cases bus.readIDFromFile dev.addr "vendor" <;>
    simp

theorem checkDevices_eq (bus : Bus) (id : String) (devs : List NvidiaGpuDevice) :
    checkDevices bus id devs =
      match (devs.map (fun dev => (id, dev))).find? (offending bus) with
      | some p => .error (unknownDevice p.2.addr)
      | none => .ok (devs.map (·.index)) := by
  induction devs with
  | nil => simp [checkDevices]
  | cons dev rest ih =>
    simp only [checkDevices, List.map_cons, List.find?_cons]
    by_cases h : offending bus (id, dev) = true
    · rw [h]
      rcases (offending_iff bus id dev).1 h with h' | h'
      · simp [h']
      · by_cases h'' : bus.readLink dev.addr "iommu_group" = some id
        · simp [h', h'']
        · simp [h'']
    · have hf : offending bus (id, dev) = false := by simpa using h
      rw [hf]
      have h' := mt (offending_iff bus id dev).2 h
      simp only [not_or, not_not] at h'
      simp only [h'.1, h'.2, ne_eq, not_true_eq_false, if_false, ih]
      generalize List.find? (offending bus) (List.map (fun dev => (id, dev)) rest) = r
      cases r <;> rfl

theorem collectIndexes_eq (bus : Bus) (inventory : GoMap (List NvidiaGpuDevice))
    (ids : List String) :
    collectIndexes bus inventory ids =
      match (containerDevices inventory ⟨ids⟩).find? (offending bus) with
      | some p => .error (unknownDevice p.2.addr)
      | none => .ok (ids.flatMap (fun id => (mapGetD inventory id).map (·.index))) := by
  induction ids with
  | nil => simp [collectIndexes, containerDevices]
  | cons id rest ih =>
    simp only [collectIndexes, containerDevices, List.flatMap_cons, List.find?_append,
      checkDevices_eq]
    simp only [containerDevices] at ih
    cases h : ((mapGetD inventory id).map (fun dev => (id, dev))).find? (offending bus) with
    | some p => simp
    | none =>
      simp only [Option.or, ih]
      generalize List.find? (offending bus)
        (rest.flatMap fun id => List.map (fun dev => (id, dev)) (mapGetD inventory id)) = r
      cases r <;> rfl


theorem updateResponseForCDI_ok (lib : CdiLib) (dpi : GenericDevicePlugin)
    (response : ContainerAllocateResponse) (rid : String) (ixs : List Nat)
    (hlib : Includes dpi.deviceListStrategies DeviceListStrategyCDIAnnotations = true →
      ∀ id devices, ∃ a, lib.updateAnnotations id devices = .ok a) :
    ∃ r, updateResponseForCDI lib dpi response rid ixs = .ok r := by
  unfold updateResponseForCDI
  by_cases h0 : ixs = []
  · simp [h0]
  · cases ha : Includes dpi.deviceListStrategies DeviceListStrategyCDIAnnotations with
    | false =>
      by_cases hc : Includes dpi.deviceListStrategies DeviceListStrategyCDICRI = true <;>
        simp [h0, hc]
    | true =>
      obtain ⟨a, ha'⟩ := hlib ha rid
        (ixs.map (fun id => QualifiedName "nvidia.com" "gpu" (toString id)))
      by_cases hp : dpi.cdiAnnotationPrefix = DefaultCDIAnnotationPrefix <;>
        by_cases hc : Includes dpi.deviceListStrategies DeviceListStrategyCDICRI = true <;>
        simp [h0, hc, hp, getCDIDeviceAnnotations, ha']

theorem getAllocateResponse_ok (lib : CdiLib) (dpi : GenericDevicePlugin) (rid : String)
    (ixs : List Nat)
    (hlib : Includes dpi.deviceListStrategies DeviceListStrategyCDIAnnotations = true →
      ∀ id devices, ∃ a, lib.updateAnnotations id devices = .ok a) :
    ∃ r, getAllocateResponse lib dpi rid ixs = .ok r := by
  obtain ⟨r, hr⟩ := updateResponseForCDI_ok lib dpi ⟨[], [], []⟩ rid ixs hlib
  exact ⟨r, by simp only [getAllocateResponse, hr]⟩

theorem allocateLoop_offending (lib : CdiLib) (bus : Bus)
    (inventory : GoMap (List NvidiaGpuDevice)) (dpi : GenericDevicePlugin)
    (reqs : List ContainerAllocateRequest) (k : Nat) (p : String × NvidiaGpuDevice)
    (hp : (reqs.flatMap (containerDevices inventory)).find? (offending bus) = some p) :
    (∃ err, allocateLoop lib bus inventory dpi k reqs = .error err) ∧
    ((Includes dpi.deviceListStrategies DeviceListStrategyCDIAnnotations = true →
        ∀ id devices, ∃ a, lib.updateAnnotations id devices = .ok a) →
      allocateLoop lib bus inventory dpi k reqs = .error (unknownDevice p.2.addr)) := by
  induction reqs generalizing k with
  | nil => simp at hp
  | cons req rest ih =>
    rw [List.flatMap_cons, List.find?_append] at hp
    have hc := collectIndexes_eq bus inventory req.DevicesIDs
    cases hfind : (containerDevices inventory req).find? (offending bus) with
    | some p' =>
      rw [hfind] at hp
      simp only [Option.or, Option.some.injEq] at hp
      subst hp
      have hfind' : (containerDevices inventory ⟨req.DevicesIDs⟩).find? (offending bus) =
          some p' := hfind
      rw [hfind'] at hc
      simp [allocateLoop, allocateContainer, hc]
    | none =>
      rw [hfind] at hp
      simp only [Option.or] at hp
      have hfind' : (containerDevices inventory ⟨req.DevicesIDs⟩).find? (offending bus) =
          none := hfind
      rw [hfind'] at hc
      obtain ⟨⟨err, herr⟩, hmsg⟩ := ih (k + 1) hp
      simp only [allocateLoop, allocateContainer, hc]
      refine ⟨?_, fun hlib => ?_⟩
      · cases getAllocateResponse lib dpi (lib.newUUID k)
          (req.DevicesIDs.flatMap fun id => (mapGetD inventory id).map (·.index)) with
        | error e => exact ⟨_, rfl⟩
        | ok r => simp only [herr]; exact ⟨_, rfl⟩
      · obtain ⟨r, hr⟩ := getAllocateResponse_ok lib dpi (lib.newUUID k)
          (req.DevicesIDs.flatMap fun id => (mapGetD inventory id).map (·.index)) hlib
        simp only [hr, hmsg hlib]

/-- C4: when some device of some requested domain is offending (its live
iommu_group link cannot be read or differs from the requested domain id, or its
live vendor id cannot be read or is not `10de`), there is a first offending device
`p` in the order `Allocate` visits them, `Allocate` returns an error and no
response, and the plugin (its advertised list `devs` included) is as before the
call; the error is `invalid allocation request: unknown device: ` followed by the
address of `p` whenever the CDI annotation helper, if the annotation strategy is
enabled at all, does not fail on the container requests before it. -/
theorem Allocate_rejects_changed_device (lib : CdiLib) (bus : Bus)
    (inventory : GoMap (List NvidiaGpuDevice)) (dpi : GenericDevicePlugin)
    (reqs : AllocateRequest)
    (hoff : ∃ p ∈ requestedDevices inventory reqs, offending bus p = true) :
    ∃ p, (requestedDevices inventory reqs).find? (offending bus) = some p ∧
      (Allocate lib bus inventory dpi reqs).1 = dpi ∧
      (Allocate lib bus inventory dpi reqs).1.devs = dpi.devs ∧
      (∃ err, (Allocate lib bus inventory dpi reqs).2 = .error err) ∧
      ((Includes dpi.deviceListStrategies DeviceListStrategyCDIAnnotations = true →
          ∀ id devices, ∃ a, lib.updateAnnotations id devices = .ok a) →
        (Allocate lib bus inventory dpi reqs).2 =
          .error ("invalid allocation request: unknown device: " ++ p.2.addr)) := by
  have hsome := List.find?_isSome.2 hoff
  obtain ⟨p, hp⟩ := Option.isSome_iff_exists.1 hsome
  obtain ⟨⟨err, herr⟩, hmsg⟩ :=
    allocateLoop_offending lib bus inventory dpi reqs.ContainerRequests 0 p hp
  refine ⟨p, hp, ?_, ?_, ⟨err, ?_⟩, fun hlib => ?_⟩
  · simp only [Allocate, herr]
  · simp only [Allocate, herr]
  · simp only [Allocate, herr]
  · simp only [Allocate, hmsg hlib]
    rfl

/-- C4 at the sample inventory read on a bus where `0000:c1:00.0` has moved to
group 75: the request for domain 214 fails naming that device. -/
theorem Allocate_rejects_changed_device_witness :
    (Allocate sampleLib
        ⟨sampleBus.readIDFromFile, fun _ l => if l = "iommu_group" then some "75" else none⟩
        sampleInventory samplePlugin ⟨[⟨["214"]⟩]⟩).2 =
      .error "invalid allocation request: unknown device: 0000:c1:00.0" := by
  obtain ⟨p, hp, -, -, -, h⟩ := Allocate_rejects_changed_device sampleLib
    ⟨sampleBus.readIDFromFile, fun _ l => if l = "iommu_group" then some "75" else none⟩
    sampleInventory samplePlugin ⟨[⟨["214"]⟩]⟩ ⟨("214", ⟨"0000:c1:00.0", 0⟩), by decide, by decide⟩
  have hp' : p = ("214", ⟨"0000:c1:00.0", 0⟩) := by
    have : (requestedDevices sampleInventory ⟨[⟨["214"]⟩]⟩).find?
        (offending ⟨sampleBus.readIDFromFile,
          fun _ l => if l = "iommu_group" then some "75" else none⟩) =
        some ("214", ⟨"0000:c1:00.0", 0⟩) := by decide
    rw [this] at hp
    exact (Option.some.inj hp).symm
  subst hp'
  exact h (fun hc => absurd hc (by decide))


theorem qualifiedName_gpu (id : String) :
    QualifiedName "nvidia.com" "gpu" id = "nvidia.com/gpu=" ++ id := by
  unfold QualifiedName
  rw [String.append_assoc, String.append_assoc, String.append_assoc]
  rfl

theorem updateResponseForCDI_nil (lib : CdiLib) (dpi : GenericDevicePlugin)
    (response : ContainerAllocateResponse) (rid : String) :
    updateResponseForCDI lib dpi response rid [] = .ok response := by
  simp [updateResponseForCDI]

theorem updateResponseForCDI_handles (lib : CdiLib) (dpi : GenericDevicePlugin) (rid : String)
    (ixs : List Nat) (r : ContainerAllocateResponse)
    (hcri : Includes dpi.deviceListStrategies DeviceListStrategyCDICRI = true)
    (h : updateResponseForCDI lib dpi ⟨[], [], []⟩ rid ixs = .ok r) :
    r.CDIDevices = ixs.map (fun id => "nvidia.com/gpu=" ++ toString id) := by
  unfold updateResponseForCDI at h
  by_cases h0 : ixs = []
  · subst h0
    simp at h
    rw [← h]
    rfl
  · simp only [List.length_map, List.length_eq_zero, h0, if_false, hcri, if_true] at h
    cases ha : Includes dpi.deviceListStrategies DeviceListStrategyCDIAnnotations with
    | false =>
      simp only [ha, Bool.false_eq_true, if_false, Except.ok.injEq] at h
      rw [← h]
      simp [qualifiedName_gpu]
    | true =>
      simp only [ha, if_true] at h
      cases hg : getCDIDeviceAnnotations lib dpi rid
          (ixs.map (fun id => QualifiedName "nvidia.com" "gpu" (toString id))) with
      | error e => simp [hg] at h
      | ok a =>
        simp only [hg, Except.ok.injEq] at h
        rw [← h]
        simp [qualifiedName_gpu]

theorem allocateContainer_nil (lib : CdiLib) (bus : Bus)
    (inventory : GoMap (List NvidiaGpuDevice)) (dpi : GenericDevicePlugin) (k : Nat) :
    allocateContainer lib bus inventory dpi k ⟨[]⟩ =
      .ok ⟨[(K8SCDIVendorClass, CdiVendorClass)], [], []⟩ := by
  simp [allocateContainer, collectIndexes, getAllocateResponse, updateResponseForCDI_nil]

theorem allocateContainer_ok (lib : CdiLib) (bus : Bus)
    (inventory : GoMap (List NvidiaGpuDevice)) (dpi : GenericDevicePlugin) (k : Nat)
    (req : ContainerAllocateRequest) (r : ContainerAllocateResponse)
    (h : allocateContainer lib bus inventory dpi k req = .ok r) :
    r.Envs = [(K8SCDIVendorClass, CdiVendorClass)] ∧
    (Includes dpi.deviceListStrategies DeviceListStrategyCDICRI = true →
      r.CDIDevices = expectedHandles inventory req) := by
  unfold allocateContainer at h
  have hc := collectIndexes_eq bus inventory req.DevicesIDs
  cases hfind : (containerDevices inventory ⟨req.DevicesIDs⟩).find? (offending bus) with
  | some p =>
    rw [hfind] at hc
    simp [hc] at h
  | none =>
    rw [hfind] at hc
    simp only [hc] at h
    cases hg : getAllocateResponse lib dpi (lib.newUUID k)
        (req.DevicesIDs.flatMap fun id => (mapGetD inventory id).map (·.index)) with
    | error e => simp [hg] at h
    | ok a =>
      simp only [hg, Except.ok.injEq] at h
      refine ⟨by rw [← h], fun hcri => ?_⟩
      have ha : updateResponseForCDI lib dpi ⟨[], [], []⟩ (lib.newUUID k)
          (req.DevicesIDs.flatMap fun id => (mapGetD inventory id).map (·.index)) = .ok a := by
        unfold getAllocateResponse at hg
        split at hg
        · simp at hg
        · rename_i r' hr'
          simp only [Except.ok.injEq] at hg
          rw [hr', hg]
      have := updateResponseForCDI_handles lib dpi _ _ a hcri ha
      rw [← h]
      simp only [this, expectedHandles, List.map_flatMap, List.map_map]
      rfl

theorem allocateLoop_forall₂ (lib : CdiLib) (bus : Bus)
    (inventory : GoMap (List NvidiaGpuDevice)) (dpi : GenericDevicePlugin)
    (reqs : List ContainerAllocateRequest) (k : Nat) (rs : List ContainerAllocateResponse)
    (h : allocateLoop lib bus inventory dpi k reqs = .ok rs) :
    List.Forall₂ (fun req r => ∃ k', allocateContainer lib bus inventory dpi k' req = .ok r)
      reqs rs := by
  induction reqs generalizing k rs with
  | nil =>
    simp only [allocateLoop, Except.ok.injEq] at h
    subst h
    exact List.Forall₂.nil
  | cons req rest ih =>
    unfold allocateLoop at h
    cases hc : allocateContainer lib bus inventory dpi k req with
    | error e => simp [hc] at h
    | ok r =>
      simp only [hc] at h
      cases hl : allocateLoop lib bus inventory dpi (k + 1) rest with
      | error e => simp [hl] at h
      | ok rs' =>
        simp only [hl, Except.ok.injEq] at h
        subst h
        exact List.Forall₂.cons ⟨k, hc⟩ (ih (k + 1) rs' hl)

theorem Allocate_ok_forall₂ (lib : CdiLib) (bus : Bus)
    (inventory : GoMap (List NvidiaGpuDevice)) (dpi : GenericDevicePlugin)
    (reqs : AllocateRequest) (resp : AllocateResponse)
    (h : (Allocate lib bus inventory dpi reqs).2 = .ok resp) :
    List.Forall₂ (fun req r => ∃ k', allocateContainer lib bus inventory dpi k' req = .ok r)
      reqs.ContainerRequests resp.ContainerResponses := by
  unfold Allocate at h
  cases hl : allocateLoop lib bus inventory dpi 0 reqs.ContainerRequests with
  | error e => simp [hl] at h
  | ok rs =>
    simp only [hl, Except.ok.injEq] at h
    subst h
    exact allocateLoop_forall₂ lib bus inventory dpi _ 0 rs hl

theorem forall₂_map_eq {α β γ : Type} (R : α → β → Prop) (f : α → γ) (g : β → γ)
    (l₁ : List α) (l₂ : List β) (h : List.Forall₂ R l₁ l₂) (hR : ∀ a b, R a b → g b = f a) :
    l₂.map g = l₁.map f := by
  induction h with
  | nil => rfl
  | cons hab _ ih => simp [hR _ _ hab, ih]

theorem forall₂_getElem? {α β : Type} (R : α → β → Prop) (l₁ : List α) (l₂ : List β)
    (h : List.Forall₂ R l₁ l₂) (i : Nat) (a : α) (ha : l₁[i]? = some a) :
    ∃ b, l₂[i]? = some b ∧ R a b := by
  induction h generalizing i with
  | nil => simp at ha
  | cons hab _ ih =>
    cases i with
    | zero =>
      simp only [List.getElem?_cons_zero, Option.some.injEq] at ha
      subst ha
      exact ⟨_, by simp, hab⟩
    | succ i =>
      simp only [List.getElem?_cons_succ] at ha ⊢
      exact ih i ha

theorem forall₂_mem_right {α β : Type} (R : α → β → Prop) (l₁ : List α) (l₂ : List β)
    (h : List.Forall₂ R l₁ l₂) (b : β) (hb : b ∈ l₂) : ∃ a ∈ l₁, R a b := by
  induction h with
  | nil => simp at hb
  | cons hab _ ih =>
    rcases List.mem_cons.1 hb with hb | hb
    · subst hb
      exact ⟨_, by simp, hab⟩
    · obtain ⟨a, ha, hR⟩ := ih hb
      exact ⟨a, List.mem_cons_of_mem _ ha, hR⟩


/-- C5: when `Allocate` succeeds on a server whose `cdi-cri` strategy is enabled,
the result has one container response per container request, in request order,
and the CDI device handles of each response are, in order, `nvidia.com/gpu=`
followed by the decimal index, for every device of every domain id of that
request (domain ids in request order, devices in inventory order). -/
theorem Allocate_cdi_handles (lib : CdiLib) (bus : Bus)
    (inventory : GoMap (List NvidiaGpuDevice)) (dpi : GenericDevicePlugin)
    (reqs : AllocateRequest) (resp : AllocateResponse)
    (hcri : Includes dpi.deviceListStrategies DeviceListStrategyCDICRI = true)
    (hok : (Allocate lib bus inventory dpi reqs).2 = .ok resp) :
    resp.ContainerResponses.length = reqs.ContainerRequests.length ∧
    resp.ContainerResponses.map (·.CDIDevices) =
      reqs.ContainerRequests.map (fun req =>
        req.DevicesIDs.flatMap (fun id =>
          (mapGetD inventory id).map (fun dev => "nvidia.com/gpu=" ++ toString dev.index))) := by
  have hall := Allocate_ok_forall₂ lib bus inventory dpi reqs resp hok
  refine ⟨hall.length_eq.symm, ?_⟩
  refine forall₂_map_eq _ _ _ _ _ hall ?_
  rintro req r ⟨k, hk⟩
  exact (allocateContainer_ok lib bus inventory dpi k req r hk).2 hcri

/-- C5 at the inventory `{"214": [{addr "0000:c1:00.0", index 0}]}`: the request
for domain 214 succeeds with one response whose only handle is `nvidia.com/gpu=0`. -/
theorem Allocate_cdi_handles_witness :
    (Allocate sampleLib sampleBus sampleInventory samplePlugin ⟨[⟨["214"]⟩]⟩).2 =
      .ok ⟨[⟨[("KUBERNETES_CDI_VENDOR_CLASS", "nvidia.com/gpu")], [], ["nvidia.com/gpu=0"]⟩]⟩ ∧
    [["nvidia.com/gpu=0"]] = [["214"].flatMap (fun id =>
      (mapGetD sampleInventory id).map (fun dev => "nvidia.com/gpu=" ++ toString dev.index))] :=
  ⟨by rfl,
    (Allocate_cdi_handles sampleLib sampleBus sampleInventory samplePlugin ⟨[⟨["214"]⟩]⟩
      ⟨[⟨[("KUBERNETES_CDI_VENDOR_CLASS", "nvidia.com/gpu")], [], ["nvidia.com/gpu=0"]⟩]⟩
      (by decide) (by rfl)).2⟩

/-- C6: whatever strategies are enabled, `getAllocateResponse` on an empty index
list returns, without error, a response with no annotations and no handles; a
container request with an empty device-id list yields, without error, a response
with no annotations and no handles (here as the `k`-th request of any call, as the
only request of a call, and as the `i`-th request of any call that succeeds). -/
theorem Allocate_empty_device_list (lib : CdiLib) (bus : Bus)
    (inventory : GoMap (List NvidiaGpuDevice)) (dpi : GenericDevicePlugin) (rid : String)
    (k : Nat) :
    getAllocateResponse lib dpi rid [] = .ok ⟨[], [], []⟩ ∧
    allocateContainer lib bus inventory dpi k ⟨[]⟩ =
      .ok ⟨[(K8SCDIVendorClass, CdiVendorClass)], [], []⟩ ∧
    Allocate lib bus inventory dpi ⟨[⟨[]⟩]⟩ =
      (dpi, .ok ⟨[⟨[(K8SCDIVendorClass, CdiVendorClass)], [], []⟩]⟩) ∧
    ∀ (reqs : AllocateRequest) (resp : AllocateResponse),
      (Allocate lib bus inventory dpi reqs).2 = .ok resp →
      ∀ (i : Nat) (req : ContainerAllocateRequest),
        reqs.ContainerRequests[i]? = some req → req.DevicesIDs = [] →
        ∃ r, resp.ContainerResponses[i]? = some r ∧ r.Annotations = [] ∧ r.CDIDevices = [] := by
  refine ⟨?_, allocateContainer_nil lib bus inventory dpi k, ?_, ?_⟩
  · simp [getAllocateResponse, updateResponseForCDI_nil]
  · simp [Allocate, allocateLoop, allocateContainer_nil]
  · intro reqs resp hok i req hi hreq
    have hall := Allocate_ok_forall₂ lib bus inventory dpi reqs resp hok
    obtain ⟨r, hr, k', hk'⟩ := forall₂_getElem? _ _ _ hall i req hi
    have hreq' : req = ⟨[]⟩ := by
      cases req
      simp only [ContainerAllocateRequest.mk.injEq]
      exact hreq
    rw [hreq', allocateContainer_nil, Except.ok.injEq] at hk'
    exact ⟨r, hr, by rw [← hk'], by rw [← hk']⟩

/-- C7: when `Allocate` succeeds, the environment map of every container response
is exactly the one entry `KUBERNETES_CDI_VENDOR_CLASS` with value `nvidia.com/gpu`,
whichever devices were requested and whichever strategies are enabled. -/
theorem Allocate_envs (lib : CdiLib) (bus : Bus)
    (inventory : GoMap (List NvidiaGpuDevice)) (dpi : GenericDevicePlugin)
    (reqs : AllocateRequest) (resp : AllocateResponse)
    (hok : (Allocate lib bus inventory dpi reqs).2 = .ok resp) :
    ∀ r ∈ resp.ContainerResponses,
      r.Envs = [("KUBERNETES_CDI_VENDOR_CLASS", "nvidia.com/gpu")] ∧
      mapGet? r.Envs "KUBERNETES_CDI_VENDOR_CLASS" = some "nvidia.com/gpu" := by
  intro r hr
  have hall := Allocate_ok_forall₂ lib bus inventory dpi reqs resp hok
  obtain ⟨req, -, k, hk⟩ := forall₂_mem_right _ _ _ hall r hr
  have henv := (allocateContainer_ok lib bus inventory dpi k req r hk).1
  have hlit : [(K8SCDIVendorClass, CdiVendorClass)] =
      [("KUBERNETES_CDI_VENDOR_CLASS", "nvidia.com/gpu")] := rfl
  rw [henv, hlit]
  exact ⟨rfl, by simp [mapGet?]⟩

/-- C7 at a request of two containers, one for domain 214 and one for nothing, on
a server with both strategies enabled: both responses carry the variable. -/
theorem Allocate_envs_witness :
    (Allocate sampleLib sampleBus sampleInventory
        { samplePlugin with
          deviceListStrategies := [("cdi-annotations", true), ("cdi-cri", true)] }
        ⟨[⟨["214"]⟩, ⟨[]⟩]⟩).2 =
      .ok ⟨[⟨[("KUBERNETES_CDI_VENDOR_CLASS", "nvidia.com/gpu")],
              [("kata-xpu-device-plugin_120c8e49-a128-4186-bdbb-af37586bd602",
                "nvidia.com/gpu=0")],
              ["nvidia.com/gpu=0"]⟩,
            ⟨[("KUBERNETES_CDI_VENDOR_CLASS", "nvidia.com/gpu")], [], []⟩]⟩ ∧
    mapGet? [("KUBERNETES_CDI_VENDOR_CLASS", "nvidia.com/gpu")] "KUBERNETES_CDI_VENDOR_CLASS" =
      some "nvidia.com/gpu" :=
  ⟨by rfl,
    (Allocate_envs sampleLib sampleBus sampleInventory
      { samplePlugin with
        deviceListStrategies := [("cdi-annotations", true), ("cdi-cri", true)] }
      ⟨[⟨["214"]⟩, ⟨[]⟩]⟩
      ⟨[⟨[("KUBERNETES_CDI_VENDOR_CLASS", "nvidia.com/gpu")],
            [("kata-xpu-device-plugin_120c8e49-a128-4186-bdbb-af37586bd602",
              "nvidia.com/gpu=0")],
            ["nvidia.com/gpu=0"]⟩,
          ⟨[("KUBERNETES_CDI_VENDOR_CLASS", "nvidia.com/gpu")], [], []⟩]⟩
      (by rfl)
      ⟨[("KUBERNETES_CDI_VENDOR_CLASS", "nvidia.com/gpu")], [], []⟩ (by decide)).2⟩


/-! ## C8: health transitions in the streaming session -/

theorem markHealth_getElem? (devs : List Device) (id health : String) (i : Nat) :
    (markHealth devs id health)[i]? =
      (devs[i]?).map (fun dev => if id = dev.ID then { dev with Health := health } else dev) := by
  simp [markHealth]

theorem markHealth_idem (devs : List Device) (id health : String) :
    markHealth (markHealth devs id health) id health = markHealth devs id health := by
  unfold markHealth
  rw [List.map_map]
  apply List.map_congr_left
  intro dev _
  by_cases h : id = dev.ID <;> simp [h]

/-- C8: for every server (whatever the health of its units before) and every id,
the session's handling of a `healthy` transition leaves every unit with that id
`Healthy` and every other record as it was, position by position, and likewise
`unhealthy` leaves it `Unhealthy`; a unit with that id is still in the list; the
full list is resent after each transition; and handling the same transition twice
in a row leaves the same list as handling it once. -/
theorem ListAndWatch_health_transition (dpi : GenericDevicePlugin) (id : String) :
    (∀ (i : Nat) (dev : Device), dpi.devs[i]? = some dev →
      (ListAndWatch dpi [.healthy id]).1.devs[i]? =
        some (if dev.ID = id then ⟨dev.ID, Healthy⟩ else dev) ∧
      (ListAndWatch dpi [.unhealthy id]).1.devs[i]? =
        some (if dev.ID = id then ⟨dev.ID, Unhealthy⟩ else dev)) ∧
    (∀ dev ∈ (ListAndWatch dpi [.healthy id]).1.devs, dev.ID = id → dev.Health = Healthy) ∧
    (∀ dev ∈ (ListAndWatch dpi [.unhealthy id]).1.devs, dev.ID = id →
      dev.Health = Unhealthy) ∧
    (ListAndWatch dpi [.healthy id]).1.devs.map (·.ID) = dpi.devs.map (·.ID) ∧
    (ListAndWatch dpi [.unhealthy id]).1.devs.map (·.ID) = dpi.devs.map (·.ID) ∧
    (ListAndWatch dpi [.healthy id]).2 = [dpi.devs, (ListAndWatch dpi [.healthy id]).1.devs] ∧
    (ListAndWatch dpi [.unhealthy id]).2 =
      [dpi.devs, (ListAndWatch dpi [.unhealthy id]).1.devs] ∧
    (ListAndWatch dpi [.healthy id, .healthy id]).1 = (ListAndWatch dpi [.healthy id]).1 ∧
    (ListAndWatch dpi [.unhealthy id, .unhealthy id]).1 =
      (ListAndWatch dpi [.unhealthy id]).1 := by
  have hmem : ∀ health : String, ∀ dev ∈ markHealth dpi.devs id health,
      dev.ID = id → dev.Health = health := by
    intro health dev hdev hid
    simp only [markHealth, List.mem_map] at hdev
    obtain ⟨d, -, hd⟩ := hdev
    by_cases h : id = d.ID
    · simp only [h, if_true] at hd
      rw [← hd]
    · simp only [h, if_false] at hd
      rw [hd] at h
      exact absurd hid.symm h
  have hids : ∀ health : String,
      (markHealth dpi.devs id health).map (·.ID) = dpi.devs.map (·.ID) := by
    intro health
    simp only [markHealth, List.map_map]
    apply List.map_congr_left
    intro dev _
    by_cases h : id = dev.ID <;> simp [h]
  refine ⟨?_, hmem Healthy, hmem Unhealthy, hids Healthy, hids Unhealthy, rfl, rfl, ?_, ?_⟩
  · intro i dev hi
    simp only [ListAndWatch, watchLoop, markHealth_getElem?, hi, Option.map_some']
    constructor <;>
    · by_cases h : id = dev.ID
      · simp [h]
      · have h' : ¬ dev.ID = id := fun h₀ => h h₀.symm
        simp [h, h']
  · simp only [ListAndWatch, watchLoop, markHealth_idem]
  · simp only [ListAndWatch, watchLoop, markHealth_idem]

/-! ## Path components -/

theorem splitSlash_ne_nil (s : List Char) : splitSlash s ≠ [] := by
  cases s with
  | nil => simp [splitSlash]
  | cons c cs =>
    unfold splitSlash
    split
    · simp
    · split <;> simp

theorem splitSlash_append_slash (xs ys : List Char) :
    splitSlash (xs ++ '/' :: ys) = splitSlash xs ++ splitSlash ys := by
  induction xs with
  | nil =>
    have := splitSlash_ne_nil ys
    simp only [List.nil_append, splitSlash]
    cases h : splitSlash ys with
    | nil => exact absurd h this
    | cons comp comps => simp
  | cons c cs ih =>
    have hne := splitSlash_ne_nil cs
    cases h : splitSlash cs with
    | nil => exact absurd h hne
    | cons comp comps =>
      rw [List.cons_append, splitSlash, ih, splitSlash, h]
      by_cases hc : c = '/' <;> simp [hc]

theorem splitSlash_no_slash (ys : List Char) (h : '/' ∉ ys) : splitSlash ys = [ys] := by
  induction ys with
  | nil => rfl
  | cons c cs ih =>
    simp only [List.mem_cons, not_or] at h
    have hc : ¬ c = '/' := fun hc => h.1 hc.symm
    simp only [splitSlash, ih h.2, hc, if_false]

/-! ## C9: the health monitor -/

theorem buildPathDeviceMap_foldl (path : String) (devs : List Device) (m : GoMap String)
    (p v : String)
    (h : mapGet? (devs.foldl (fun m dev => mapSet m (filepathJoin path dev.ID) dev.ID) m) p =
      some v) :
    mapGet? m p = some v ∨ ∃ dev ∈ devs, filepathJoin path dev.ID = p ∧ dev.ID = v := by
  induction devs generalizing m with
  | nil => exact Or.inl h
  | cons dev rest ih =>
    simp only [List.foldl_cons] at h
    rcases ih _ h with h' | ⟨d, hd, hp⟩
    · by_cases hk : filepathJoin path dev.ID = p
      · subst hk
        rw [mapGet?_mapSet_same, Option.some.injEq] at h'
        exact Or.inr ⟨dev, by simp, rfl, h'⟩
      · rw [mapGet?_mapSet_other _ _ _ _ hk] at h'
        exact Or.inl h'
    · exact Or.inr ⟨d, List.mem_cons_of_mem _ hd, hp⟩

theorem buildPathDeviceMap_tracked (path : String) (devs : List Device) (m : GoMap String)
    (p : String)
    (h : mapGet? m p ≠ none ∨ ∃ dev ∈ devs, filepathJoin path dev.ID = p) :
    mapGet? (devs.foldl (fun m dev => mapSet m (filepathJoin path dev.ID) dev.ID) m) p ≠
      none := by
  induction devs generalizing m with
  | nil =>
    rcases h with h | ⟨d, hd, -⟩
    · exact h
    · simp at hd
  | cons dev rest ih =>
    simp only [List.foldl_cons]
    apply ih
    by_cases hk : filepathJoin path dev.ID = p
    · left
      rw [← hk, mapGet?_mapSet_same]
      simp
    · rcases h with h | ⟨d, hd, hp⟩
      · left
        rwa [mapGet?_mapSet_other _ _ _ _ hk]
      · rcases List.mem_cons.1 hd with hd | hd
        · subst hd
          exact absurd hp hk
        · exact Or.inr ⟨d, hd, hp⟩

theorem watchDevices_ok (calls : WatchCalls) (path : String) (devs : List Device)
    (m : GoMap String)
    (h : ∀ dev ∈ devs, calls.addDevice (filepathJoin path dev.ID) = none) :
    watchDevices calls path devs m =
      .ok (devs.foldl (fun m dev => mapSet m (filepathJoin path dev.ID) dev.ID) m) := by
  induction devs generalizing m with
  | nil => rfl
  | cons dev rest ih =>
    simp only [watchDevices, h dev (by simp), List.foldl_cons]
    exact ih _ (fun d hd => h d (List.mem_cons_of_mem _ hd))

theorem healthCheck_eq_monitorLoop (calls : WatchCalls) (dpi : GenericDevicePlugin)
    (inputs : List MonitorInput)
    (hsetup : calls.newWatcher = none ∧ calls.addSocketDir = none ∧ calls.stat = none ∧
      ∀ dev ∈ dpi.devs, calls.addDevice (filepathJoin dpi.devicePath dev.ID) = none) :
    healthCheck calls dpi inputs =
      monitorLoop calls (buildPathDeviceMap dpi.devicePath dpi.devs) dpi.socketPath inputs := by
  obtain ⟨h₁, h₂, h₃, h₄⟩ := hsetup
  simp only [healthCheck, h₁, h₂, h₃, watchDevices_ok calls dpi.devicePath dpi.devs [] h₄,
    buildPathDeviceMap]

/-- The cases of one event on any server. Once the watches are set up, the state map tracks
exactly the paths `devicePath` joined with a unit id, each mapped to the id of a
unit with that path. For an event on a tracked path mapped to `v`: a create event
sends `v` as healthy, a remove or rename event sends `v` as unhealthy, any other
operation does nothing, and the monitor goes on with the next input. For an event
on a path that is not tracked: a remove event on the endpoint path calls `restart`
once and the monitor returns; any other event does nothing and the monitor goes on
with the next input. -/
theorem healthCheck_event_cases (calls : WatchCalls) (dpi : GenericDevicePlugin) (ev : FsEvent)
    (rest : List MonitorInput)
    (hsetup : calls.newWatcher = none ∧ calls.addSocketDir = none ∧ calls.stat = none ∧
      ∀ dev ∈ dpi.devs, calls.addDevice (filepathJoin dpi.devicePath dev.ID) = none) :
    (∀ p v, mapGet? (buildPathDeviceMap dpi.devicePath dpi.devs) p = some v →
      ∃ dev ∈ dpi.devs, filepathJoin dpi.devicePath dev.ID = p ∧ dev.ID = v) ∧
    (∀ dev ∈ dpi.devs,
      mapGet? (buildPathDeviceMap dpi.devicePath dpi.devs)
        (filepathJoin dpi.devicePath dev.ID) ≠ none) ∧
    (∀ v, mapGet? (buildPathDeviceMap dpi.devicePath dpi.devs) ev.Name = some v →
      (ev.Op = fsCreate →
        healthCheck calls dpi (.event ev :: rest) =
          { healthCheck calls dpi rest with
            sent := (true, v) :: (healthCheck calls dpi rest).sent }) ∧
      (ev.Op = fsRemove ∨ ev.Op = fsRename →
        healthCheck calls dpi (.event ev :: rest) =
          { healthCheck calls dpi rest with
            sent := (false, v) :: (healthCheck calls dpi rest).sent }) ∧
      (ev.Op ≠ fsCreate → ev.Op ≠ fsRemove → ev.Op ≠ fsRename →
        healthCheck calls dpi (.event ev :: rest) = healthCheck calls dpi rest)) ∧
    (mapGet? (buildPathDeviceMap dpi.devicePath dpi.devs) ev.Name = none →
      (ev.Name = dpi.socketPath ∧ ev.Op = fsRemove →
        healthCheck calls dpi (.event ev :: rest) = ⟨[], 1, true, calls.restart⟩) ∧
      (¬ (ev.Name = dpi.socketPath ∧ ev.Op = fsRemove) →
        healthCheck calls dpi (.event ev :: rest) = healthCheck calls dpi rest)) := by
  rw [healthCheck_eq_monitorLoop calls dpi _ hsetup, healthCheck_eq_monitorLoop calls dpi _ hsetup]
  refine ⟨fun p v h => ?_, fun dev hdev => ?_, fun v hv => ⟨fun hop => ?_, fun hop => ?_,
    fun h₁ h₂ h₃ => ?_⟩, fun hn => ⟨fun hs => ?_, fun hs => ?_⟩⟩
  · rcases buildPathDeviceMap_foldl dpi.devicePath dpi.devs [] p v h with h' | h'
    · simp [mapGet?] at h'
    · exact h'
  · exact buildPathDeviceMap_tracked dpi.devicePath dpi.devs [] _ (Or.inr ⟨dev, hdev, rfl⟩)
  · simp [monitorLoop, handleEvent, hv, hop]
  · have hc : ev.Op ≠ fsCreate := by
      rcases hop with h | h <;> rw [h] <;> decide
    simp [monitorLoop, handleEvent, hv, hop, hc]
  · simp [monitorLoop, handleEvent, hv, h₁, h₂, h₃]
  · obtain ⟨h₁, h₂⟩ := hs
    rw [h₁] at hn
    simp only [monitorLoop, handleEvent, h₁, h₂, hn, and_self, if_true]
  · simp only [monitorLoop, handleEvent, hn, hs, if_false]

theorem filepathJoin_vfio_data (id : String) (h : '/' ∉ id.data) :
    ∃ tail, (filepathJoin "/dev/vfio/" id).data = '/' :: 'd' :: tail := by
  have hdata : ("/dev/vfio/" ++ "/" ++ id).data = "/dev/vfio/".data ++ '/' :: id.data := by
    simp [String.data_append]
  have hne : ("/dev/vfio/" ++ "/" ++ id) ≠ "" := by
    intro he
    have := congrArg String.data he
    rw [hdata] at this
    simp at this
  have hsplit : splitSlash ("/dev/vfio/" ++ "/" ++ id).data =
      [[], ['d', 'e', 'v'], ['v', 'f', 'i', 'o'], [], id.data] := by
    rw [hdata, splitSlash_append_slash, splitSlash_no_slash _ h]
    rfl
  have hfold : (splitSlash ("/dev/vfio/" ++ "/" ++ id).data).foldl (cleanStep true) [] =
      cleanStep true [['v', 'f', 'i', 'o'], ['d', 'e', 'v']] id.data := by
    rw [hsplit]
    rfl
  have hrooted : ("/dev/vfio/" ++ "/" ++ id).data.head? = some '/' := by
    rw [hdata]
    rfl
  have hjoin : filepathJoin "/dev/vfio/" id =
      "/" ++ String.mk (List.intercalate ['/']
        (cleanStep true [['v', 'f', 'i', 'o'], ['d', 'e', 'v']] id.data).reverse) := by
    have ha : ("/dev/vfio/" : String) ≠ "" := by decide
    have hb : decide (("/dev/vfio/" ++ "/" ++ id).data.head? = some '/') = true := by
      rw [hrooted]
      rfl
    simp only [filepathJoin, ha, ne_eq, not_false_eq_true, if_true, filepathClean, hne,
      if_false, hb, hfold]
    rw [if_pos hrooted]
  rw [hjoin]
  unfold cleanStep
  by_cases h₁ : id.data = [] ∨ id.data = ['.']
  · rw [if_pos h₁]
    exact ⟨_, rfl⟩
  · rw [if_neg h₁]
    by_cases h₂ : id.data = ['.', '.']
    · rw [if_pos h₂]
      exact ⟨_, rfl⟩
    · rw [if_neg h₂]
      refine ⟨'e' :: 'v' :: '/' :: 'v' :: 'f' :: 'i' :: 'o' :: '/' :: id.data, ?_⟩
      simp [String.data_append, List.intercalate]

theorem socketPath_data (name : String) :
    ∃ tail, (DevicePluginPath ++ "kata-xpu-" ++ name ++ ".sock").data = '/' :: 'v' :: tail := by
  simp only [DevicePluginPath, String.data_append]
  exact ⟨_, rfl⟩

theorem endpoint_untracked (dpi : GenericDevicePlugin)
    (hdir : dpi.devicePath = "/dev/vfio/")
    (hsock : dpi.socketPath = DevicePluginPath ++ "kata-xpu-" ++ dpi.devpluginName ++ ".sock")
    (hids : ∀ dev ∈ dpi.devs, '/' ∉ dev.ID.data) :
    mapGet? (buildPathDeviceMap dpi.devicePath dpi.devs) dpi.socketPath = none := by
  cases hget : mapGet? (buildPathDeviceMap dpi.devicePath dpi.devs) dpi.socketPath with
  | none => rfl
  | some v =>
    rcases buildPathDeviceMap_foldl dpi.devicePath dpi.devs [] _ v hget with h' | h'
    · simp [mapGet?] at h'
    · obtain ⟨dev, hdev, hjoin, -⟩ := h'
      obtain ⟨t₁, ht₁⟩ := filepathJoin_vfio_data dev.ID (hids dev hdev)
      obtain ⟨t₂, ht₂⟩ := socketPath_data dpi.devpluginName
      rw [hdir, hsock] at hjoin
      have := congrArg String.data hjoin
      rw [ht₁, ht₂] at this
      simp at this

theorem startModel_server (host : Host) (k : String) (v : List String) :
    (startModel host k v).dpi.devicePath = "/dev/vfio/" ∧
    (startModel host k v).dpi.socketPath =
      DevicePluginPath ++ "kata-xpu-" ++ (startModel host k v).dpi.devpluginName ++ ".sock" ∧
    (startModel host k v).dpi.devs.map (·.ID) = v := by
  have key : ∀ (calls : StartCalls) (dp : GenericDevicePlugin),
      (Start calls dp).dpi.devicePath = dp.devicePath ∧
      (Start calls dp).dpi.socketPath = dp.socketPath ∧
      (Start calls dp).dpi.devpluginName = dp.devpluginName ∧
      (Start calls dp).dpi.devs = dp.devs := by
    intro calls dp
    unfold Start
    cases dp.serverStarted <;> cases calls.cleanup <;> cases calls.listen <;>
      cases calls.register <;> simp
  simp only [startModel]
  obtain ⟨h₁, h₂, h₃, h₄⟩ := key
    (host.startCalls (NewGenericDevicePlugin
      (if getDeviceName host.upperTable host.pciIds k = "" then k
        else getDeviceName host.upperTable host.pciIds k) "/dev/vfio/"
      (v.map (fun dev => (⟨dev, Healthy⟩ : Device)))))
    (NewGenericDevicePlugin
      (if getDeviceName host.upperTable host.pciIds k = "" then k
        else getDeviceName host.upperTable host.pciIds k) "/dev/vfio/"
      (v.map (fun dev => (⟨dev, Healthy⟩ : Device))))
  rw [h₁, h₂, h₃, h₄]
  simp [NewGenericDevicePlugin, Function.comp_def]

/-- C9: on a server as `createDevicePlugins` builds it (device directory
`/dev/vfio/`, unit ids without a slash, endpoint path `kata-xpu-<name>.sock` in the
plugin directory), once the watches are set up, the state map tracks exactly the
paths `devicePath` joined with a unit id, each mapped to the id of a unit with that
path, and for every event: a create event on a tracked path mapped to `v` sends `v`
as healthy and the monitor goes on; a remove or rename event on a tracked path
mapped to `v` sends `v` as unhealthy and the monitor goes on; a remove event on the
endpoint path calls `restart` once and the monitor returns; every other event sends
nothing, restarts nothing, and the monitor goes on with the next input. -/
theorem healthCheck_event (calls : WatchCalls) (dpi : GenericDevicePlugin) (ev : FsEvent)
    (rest : List MonitorInput)
    (hsetup : calls.newWatcher = none ∧ calls.addSocketDir = none ∧ calls.stat = none ∧
      ∀ dev ∈ dpi.devs, calls.addDevice (filepathJoin dpi.devicePath dev.ID) = none)
    (hdir : dpi.devicePath = "/dev/vfio/")
    (hsock : dpi.socketPath = DevicePluginPath ++ "kata-xpu-" ++ dpi.devpluginName ++ ".sock")
    (hids : ∀ dev ∈ dpi.devs, '/' ∉ dev.ID.data) :
    (∀ p v, mapGet? (buildPathDeviceMap dpi.devicePath dpi.devs) p = some v →
      ∃ dev ∈ dpi.devs, filepathJoin dpi.devicePath dev.ID = p ∧ dev.ID = v) ∧
    (∀ dev ∈ dpi.devs,
      mapGet? (buildPathDeviceMap dpi.devicePath dpi.devs)
        (filepathJoin dpi.devicePath dev.ID) ≠ none) ∧
    (∀ v, mapGet? (buildPathDeviceMap dpi.devicePath dpi.devs) ev.Name = some v →
      (ev.Op = fsCreate →
        healthCheck calls dpi (.event ev :: rest) =
          { healthCheck calls dpi rest with
            sent := (true, v) :: (healthCheck calls dpi rest).sent }) ∧
      (ev.Op = fsRemove ∨ ev.Op = fsRename →
        healthCheck calls dpi (.event ev :: rest) =
          { healthCheck calls dpi rest with
            sent := (false, v) :: (healthCheck calls dpi rest).sent })) ∧
    (ev.Name = dpi.socketPath ∧ ev.Op = fsRemove →
      healthCheck calls dpi (.event ev :: rest) = ⟨[], 1, true, calls.restart⟩) ∧
    ((mapGet? (buildPathDeviceMap dpi.devicePath dpi.devs) ev.Name = none ∨
        (ev.Op ≠ fsCreate ∧ ev.Op ≠ fsRemove ∧ ev.Op ≠ fsRename)) →
      ¬ (ev.Name = dpi.socketPath ∧ ev.Op = fsRemove) →
      healthCheck calls dpi (.event ev :: rest) = healthCheck calls dpi rest) := by
  obtain ⟨hmap, htracked, hon, hoff⟩ := healthCheck_event_cases calls dpi ev rest hsetup
  have hend := endpoint_untracked dpi hdir hsock hids
  refine ⟨hmap, htracked, fun v hv => ⟨(hon v hv).1, (hon v hv).2.1⟩, fun hs => ?_,
    fun hother hs => ?_⟩
  · have hn : mapGet? (buildPathDeviceMap dpi.devicePath dpi.devs) ev.Name = none := by
      rw [hs.1]; exact hend
    exact (hoff hn).1 hs
  · cases hget : mapGet? (buildPathDeviceMap dpi.devicePath dpi.devs) ev.Name with
    | none => exact (hoff hget).2 hs
    | some v =>
      rcases hother with h | h
      · rw [hget] at h; simp at h
      · exact (hon v hget).2.2 h.1 h.2.1 h.2.2

/-- C9 on the server of the sample inventory: a remove event on the endpoint path
calls `restart` once and the monitor returns without handling the create event
that follows. -/
theorem healthCheck_event_witness :
    healthCheck watchCallsOk samplePlugin
        [.event ⟨samplePlugin.socketPath, fsRemove⟩, .event ⟨"/dev/vfio/214", fsCreate⟩] =
      ⟨[], 1, true, none⟩ :=
  (healthCheck_event watchCallsOk samplePlugin ⟨samplePlugin.socketPath, fsRemove⟩
    [.event ⟨"/dev/vfio/214", fsCreate⟩] (by decide) rfl rfl (by decide)).2.2.2.1
      ⟨rfl, rfl⟩

/-! ## C10: server start -/

/-- C10 fails on the code: when binding succeeds, the bounded wait for the
endpoint fails and registration succeeds, `Start` returns a nil error and has
started the health monitor. -/
theorem Start_drops_wait_failure :
    (Start ⟨none, none, some "context deadline exceeded", none⟩ samplePlugin).err = none ∧
    (Start ⟨none, none, some "context deadline exceeded", none⟩
      samplePlugin).healthCheckStarted = true := by
  decide

/-- What `Start` does propagate: it returns a non-nil error without starting the
health monitor when the server is already started or when cleanup, binding or
registration fails, and starts the health monitor exactly when it returns nil. -/
theorem Start_propagates (calls : StartCalls) (dpi : GenericDevicePlugin) :
    ((Start calls dpi).healthCheckStarted = true ↔ (Start calls dpi).err = none) ∧
    ((Start calls dpi).err = none ↔
      (dpi.serverStarted = false ∧ calls.cleanup = none ∧ calls.listen = none ∧
        calls.register = none)) := by
  unfold Start
  cases dpi.serverStarted <;> cases calls.cleanup <;> cases calls.listen <;>
    cases calls.register <;> simp

/-! ## C12: the CDI document -/

theorem generateCDISpec_sample :
    generateCDISpec [("214", [⟨"0000:c1:00.0", 0⟩, ⟨"0000:c1:00.1", 1⟩]), ("75", [⟨"0000:3d:00.0", 2⟩])] =
      ⟨"0.6.0", "nvidia.com/gpu", [],
        [expectedSpecDevice "214" ⟨"0000:c1:00.0", 0⟩, expectedSpecDevice "214" ⟨"0000:c1:00.1", 1⟩,
          expectedSpecDevice "75" ⟨"0000:3d:00.0", 2⟩], ⟨[]⟩⟩ := by
  decide

theorem vfioKey_ne (d : String) :
    "cdi.k8s.io/" ++ "vfio" ++ d ≠ "attach-pci" ∧ "cdi.k8s.io/" ++ "vfio" ++ d ≠ "bdf" := by
  constructor <;>
  · intro h
    have h' := congrArg String.data h
    simp [String.data_append] at h'

theorem addSpecDevice_eq (d : String) (cs : Cdi.CdiSpec) (dev : NvidiaGpuDevice) :
    addSpecDevice d cs dev = { cs with Devices := cs.Devices ++ [expectedSpecDevice d dev] } := by
  have hinit : cs.initSpec = cs := by
    unfold Cdi.CdiSpec.initSpec
    by_cases h₁ : cs.Devices = [] <;> by_cases h₂ : cs.Annotations = [] <;>
      cases cs <;> simp_all
  have hk := vfioKey_ne d
  have hk₁ : ¬ "attach-pci" = "cdi.k8s.io/" ++ "vfio" ++ d := fun h => hk.1 h.symm
  have hk₂ : ¬ "cdi.k8s.io/" ++ "vfio" ++ d = "bdf" := hk.2
  simp only [addSpecDevice, Cdi.CdiSpec.NewDevice, hinit, expectedSpecDevice, mapSet,
    Cdi.CdiK8SPrefix, Cdi.DefaultKind, hk₁, hk₂, if_false, List.nil_append]
  have hb : ¬ "attach-pci" = "bdf" := by decide
  simp only [hb, if_false]
  rfl

theorem foldl_addSpecDevice (d : String) (devs : List NvidiaGpuDevice) (cs : Cdi.CdiSpec) :
    devs.foldl (addSpecDevice d) cs =
      { cs with Devices := cs.Devices ++ devs.map (expectedSpecDevice d) } := by
  induction devs generalizing cs with
  | nil => simp
  | cons dev rest ih => simp [List.foldl_cons, ih, addSpecDevice_eq]

theorem foldl_generateCDISpec (iommuMap : GoMap (List NvidiaGpuDevice)) (cs : Cdi.CdiSpec) :
    iommuMap.foldl (fun cs kv => kv.2.foldl (addSpecDevice kv.1) cs) cs =
      { cs with
        Devices := cs.Devices ++ iommuMap.flatMap (fun kv => kv.2.map (expectedSpecDevice kv.1)) } := by
  induction iommuMap generalizing cs with
  | nil => simp
  | cons kv rest ih =>
    rw [List.foldl_cons, foldl_addSpecDevice, ih]
    simp [List.flatMap_cons]

theorem mapValues_length {V : Type} (m : GoMap (List V)) :
    (mapValues m).length = (m.map (fun kv => kv.2.length)).sum := by
  induction m with
  | nil => rfl
  | cons kv rest ih =>
    obtain ⟨k, vs⟩ := kv
    simp [mapValues, ih]

/-- C12: for every inventory the document `generateCDISpec` builds has version
`0.6.0`, kind `nvidia.com/gpu`, an empty spec-wide device-node list, and as device
entries exactly one per device of every domain (as many as the inventory has
devices): for the device with index `i` and address `a` of domain `d`, the entry
named by the decimal string of `i`, with the three annotations `attach-pci` =
`true`, `cdi.k8s.io/vfio` followed by `d` = `nvidia.com/gpu=` followed by `i`,
`bdf` = `a`, and the one device node `/dev/vfio/` followed by `d`. -/
theorem generateCDISpec_devices (iommuMap : GoMap (List NvidiaGpuDevice)) :
    (generateCDISpec iommuMap).Devices =
      iommuMap.flatMap (fun kv => kv.2.map (fun dev =>
        (⟨toString dev.index,
          [("attach-pci", "true"),
            ("cdi.k8s.io/vfio" ++ kv.1, "nvidia.com/gpu=" ++ toString dev.index),
            ("bdf", dev.addr)],
          ⟨[⟨"/dev/vfio/" ++ kv.1⟩]⟩⟩ : Cdi.Device))) ∧
    (generateCDISpec iommuMap).Devices.length = (mapValues iommuMap).length ∧
    (∀ e ∈ (generateCDISpec iommuMap).Devices, ∃ d devs i a,
      (d, devs) ∈ iommuMap ∧ (⟨a, i⟩ : NvidiaGpuDevice) ∈ devs ∧
      e.Name = toString i ∧ e.ContainerEdits.DeviceNodes = [⟨"/dev/vfio/" ++ d⟩] ∧
      e.Annotations.length = 3 ∧
      mapGet? e.Annotations "attach-pci" = some "true" ∧
      mapGet? e.Annotations "bdf" = some a ∧
      mapGet? e.Annotations ("cdi.k8s.io/vfio" ++ d) = some ("nvidia.com/gpu=" ++ toString i)) ∧
    (generateCDISpec iommuMap).Version = "0.6.0" ∧
    (generateCDISpec iommuMap).Kind = "nvidia.com/gpu" ∧
    (generateCDISpec iommuMap).ContainerEdits.DeviceNodes = [] := by
  have hgen : generateCDISpec iommuMap =
      ⟨"0.6.0", "nvidia.com/gpu", [],
        iommuMap.flatMap (fun kv => kv.2.map (expectedSpecDevice kv.1)), ⟨[]⟩⟩ := by
    unfold generateCDISpec
    rw [foldl_generateCDISpec]
    rfl
  rw [hgen]
  refine ⟨rfl, ?_, ?_, rfl, rfl, rfl⟩
  · simp only [List.length_flatMap, mapValues_length]
    congr 1
    apply List.map_congr_left
    intro kv _
    simp
  · intro e he
    simp only [List.mem_flatMap, List.mem_map] at he
    obtain ⟨kv, hkv, dev, hdev, rfl⟩ := he
    obtain ⟨hk₁, hk₂⟩ := vfioKey_ne kv.1
    refine ⟨kv.1, kv.2, dev.index, dev.addr, hkv, hdev, rfl, rfl, rfl, ?_, ?_, ?_⟩
    · simp [expectedSpecDevice, mapGet?]
    · have h₁ : ¬ "cdi.k8s.io/vfio" ++ kv.1 = "bdf" := hk₂
      simp [expectedSpecDevice, mapGet?, h₁]
    · have h₁ : ¬ "attach-pci" = "cdi.k8s.io/vfio" ++ kv.1 := fun h => hk₁ h.symm
      simp [expectedSpecDevice, mapGet?, h₁]

/-! ## C14: device ids that the inventory does not hold -/

/-- C14: when no device id of a container request has an entry in the inventory,
`Allocate` has no device to re-read for it (so the outcome is the same on every
bus, also on one where every read fails), and the request succeeds: as the `k`-th
request of any call it yields, and as the only request of a call `Allocate`
returns, without error, a response with no annotations and no CDI device handles. -/
theorem Allocate_unknown_ids (lib : CdiLib) (bus : Bus)
    (inventory : GoMap (List NvidiaGpuDevice)) (dpi : GenericDevicePlugin)
    (req : ContainerAllocateRequest) (k : Nat)
    (habsent : ∀ id ∈ req.DevicesIDs, mapGet? inventory id = none) :
    containerDevices inventory req = [] ∧
    allocateContainer lib bus inventory dpi k req =
      .ok ⟨[(K8SCDIVendorClass, CdiVendorClass)], [], []⟩ ∧
    Allocate lib bus inventory dpi ⟨[req]⟩ =
      (dpi, .ok ⟨[⟨[(K8SCDIVendorClass, CdiVendorClass)], [], []⟩]⟩) ∧
    Allocate lib ⟨fun _ _ => none, fun _ _ => none⟩ inventory dpi ⟨[req]⟩ =
      (dpi, .ok ⟨[⟨[(K8SCDIVendorClass, CdiVendorClass)], [], []⟩]⟩) := by
  have hD : ∀ id ∈ req.DevicesIDs, mapGetD inventory id = [] := by
    intro id hid
    simp [mapGetD, habsent id hid]
  have hdevs : containerDevices inventory req = [] := by
    simp only [containerDevices, List.flatMap_eq_nil_iff]
    intro id hid
    simp [hD id hid]
  have hixs : (req.DevicesIDs.flatMap fun id => (mapGetD inventory id).map (·.index)) = [] := by
    simp only [List.flatMap_eq_nil_iff]
    intro id hid
    simp [hD id hid]
  have hcont : ∀ (b : Bus) (j : Nat), allocateContainer lib b inventory dpi j req =
      .ok ⟨[(K8SCDIVendorClass, CdiVendorClass)], [], []⟩ := by
    intro b j
    have hc := collectIndexes_eq b inventory req.DevicesIDs
    have hdevs' : containerDevices inventory ⟨req.DevicesIDs⟩ = [] := hdevs
    rw [hdevs', hixs] at hc
    simp [allocateContainer, hc, getAllocateResponse, updateResponseForCDI_nil]
  refine ⟨hdevs, hcont bus k, ?_, ?_⟩
  · simp [Allocate, allocateLoop, hcont]
  · simp [Allocate, allocateLoop, hcont]

/-- C14 at the sample inventory, which holds domain 214 only: a request for
domains 75 and 999 succeeds with an empty response on a bus where every read fails. -/
theorem Allocate_unknown_ids_witness :
    Allocate sampleLib ⟨fun _ _ => none, fun _ _ => none⟩ sampleInventory samplePlugin
        ⟨[⟨["75", "999"]⟩]⟩ =
      (samplePlugin, .ok ⟨[⟨[("KUBERNETES_CDI_VENDOR_CLASS", "nvidia.com/gpu")], [], []⟩]⟩) :=
  (Allocate_unknown_ids sampleLib ⟨fun _ _ => none, fun _ _ => none⟩ sampleInventory
    samplePlugin ⟨["75", "999"]⟩ 0 (by decide)).2.2.1

/-! ## C15: the two indices agree -/

theorem record_deviceMap_values (st : ScanState) (q : Qualified) :
    (mapValues (record st q).deviceMap).Perm
      (mapValues st.deviceMap ++ (if q.newModel.isSome then [q.group] else [])) := by
  unfold record appendDevice
  cases hq : q.newModel with
  | none => simp
  | some m =>
    simp only [Option.isSome_some, if_true]
    exact mapValues_mapSet_append st.deviceMap m q.group

theorem foldl_record_deviceMap_values (qs : List Qualified) (st : ScanState) :
    (mapValues (qs.foldl record st).deviceMap).Perm (mapValues st.deviceMap ++ newGroups qs) := by
  induction qs generalizing st with
  | nil => simp [newGroups]
  | cons q rest ih =>
    simp only [List.foldl_cons]
    refine (ih (record st q)).trans ?_
    refine (List.Perm.append_right _ (record_deviceMap_values st q)).trans ?_
    by_cases h : q.newModel.isSome = true
    · simp [newGroups, h]
    · simp [newGroups, h]

theorem mapSet_nonempty {V : Type} (m : GoMap (List V)) (k : String) (v : List V)
    (hm : ∀ kv ∈ m, kv.2 ≠ []) (hv : v ≠ []) : ∀ kv ∈ mapSet m k v, kv.2 ≠ [] := by
  induction m with
  | nil =>
    intro kv hkv
    simp only [mapSet, List.mem_singleton] at hkv
    rw [hkv]
    exact hv
  | cons b rest ih =>
    obtain ⟨k', v'⟩ := b
    intro kv hkv
    by_cases h : k' = k
    · simp only [mapSet, h, if_true, List.mem_cons] at hkv
      rcases hkv with hkv | hkv
      · rw [hkv]; exact hv
      · exact hm kv (List.mem_cons_of_mem _ hkv)
    · simp only [mapSet, h, if_false, List.mem_cons] at hkv
      rcases hkv with hkv | hkv
      · rw [hkv]; exact hm (k', v') (by simp)
      · exact ih (fun x hx => hm x (List.mem_cons_of_mem _ hx)) kv hkv

theorem foldl_record_deviceMap_nonempty (qs : List Qualified) (st : ScanState)
    (h : ∀ kv ∈ st.deviceMap, kv.2 ≠ []) : ∀ kv ∈ (qs.foldl record st).deviceMap, kv.2 ≠ [] := by
  induction qs generalizing st with
  | nil => simpa using h
  | cons q rest ih =>
    simp only [List.foldl_cons]
    apply ih
    unfold record appendDevice
    cases q.newModel with
    | none => exact h
    | some m => exact mapSet_nonempty _ _ _ h (by simp)

theorem foldl_record_deviceMap_nodup (qs : List Qualified) (st : ScanState)
    (h : (mapKeys st.deviceMap).Nodup) : (mapKeys (qs.foldl record st).deviceMap).Nodup := by
  induction qs generalizing st with
  | nil => simpa using h
  | cons q rest ih =>
    simp only [List.foldl_cons]
    apply ih
    unfold record appendDevice
    cases q.newModel with
    | none => exact h
    | some m => exact mapKeys_mapSet_nodup _ _ _ h

theorem qualify_seen (bus : Bus) (seen : List String) (e : WalkEntry) (q : Qualified)
    (h : qualify bus seen e = some q) (hm : q.newModel = none) : q.group ∈ seen := by
  unfold qualify at h
  split at h
  · split at h
    · simp at h
    · split at h
      · rename_i hs
        simp at h; rw [← h]; exact hs
      · split at h
        · simp at h
        · simp at h; rw [← h] at hm; simp at hm
  · simp at h

theorem mem_newGroups (qs : List Qualified) (g : String) (h : g ∈ newGroups qs) :
    g ∈ qs.map (·.group) := by
  induction qs with
  | nil => simp [newGroups] at h
  | cons q rest ih =>
    by_cases hq : q.newModel.isSome = true
    · simp only [newGroups, hq, if_true, List.mem_cons] at h
      rcases h with h | h
      · simp [h]
      · exact List.mem_cons_of_mem _ (ih h)
    · simp only [newGroups, hq] at h
      exact List.mem_cons_of_mem _ (ih h)

theorem qualifying_newGroups (bus : Bus) (entries : List WalkEntry) (seen : List String) :
    (newGroups (qualifying bus seen entries)).Nodup ∧
    (∀ g ∈ newGroups (qualifying bus seen entries), g ∉ seen) ∧
    (∀ g ∈ (qualifying bus seen entries).map (·.group), g ∉ seen →
      g ∈ newGroups (qualifying bus seen entries)) := by
  induction entries generalizing seen with
  | nil => simp [qualifying, newGroups]
  | cons e rest ih =>
    unfold qualifying
    by_cases herr : e.err.isSome = true
    · simp [herr, newGroups]
    · simp only [herr, if_false]
      cases hq : qualify bus seen e with
      | none => exact ih seen
      | some q =>
        obtain ⟨hnd, hdisj, hcov⟩ := ih (q.group :: seen)
        cases hm : q.newModel with
        | none =>
          have hs := qualify_seen bus seen e q hq hm
          simp only [newGroups, hm, Option.isSome_none, Bool.false_eq_true, if_false]
          refine ⟨hnd, fun g hg hgs => hdisj g hg (List.mem_cons_of_mem _ hgs), ?_⟩
          intro g hg hgs
          simp only [List.map_cons, List.mem_cons] at hg
          rcases hg with hg | hg
          · rw [hg] at hgs; exact absurd hs hgs
          · apply hcov g hg
            intro hmem
            rcases List.mem_cons.1 hmem with h' | h'
            · rw [h'] at hgs; exact hgs hs
            · exact hgs h'
        | some m =>
          have hs := qualify_newModel bus seen e q m hq hm
          simp only [newGroups, hm, Option.isSome_some, if_true]
          refine ⟨?_, ?_, ?_⟩
          · rw [List.nodup_cons]
            exact ⟨fun hmem => hdisj _ hmem (by simp), hnd⟩
          · intro g hg hgs
            rcases List.mem_cons.1 hg with h' | h'
            · rw [h'] at hgs; exact hs hgs
            · exact hdisj g h' (List.mem_cons_of_mem _ hgs)
          · intro g hg hgs
            have hg : g = q.group ∨
                g ∈ (qualifying bus (q.group :: seen) rest).map (·.group) := by
              simpa using hg
            by_cases hgq : g = q.group
            · simp [hgq]
            · rcases hg with hg | hg
              · exact absurd hg hgq
              · apply List.mem_cons_of_mem
                apply hcov g hg
                intro hmem
                rcases List.mem_cons.1 hmem with h' | h'
                · exact hgq h'
                · exact hgs h'

theorem devicesOf_ne_nil (g : String) (qs : List Qualified) (k : Nat)
    (h : g ∈ qs.map (·.group)) : devicesOf g k qs ≠ [] := by
  obtain ⟨q, hq, hqg⟩ := List.mem_map.1 h
  obtain ⟨i, hi⟩ := List.mem_iff_getElem?.1 hq
  have := mem_devicesOf qs k i q hi
  rw [hqg] at this
  exact List.ne_nil_of_mem this

/-- C15: after `createIommuDeviceMap`, for every walk, every key of `iommuMap`
occurs exactly once in the concatenation of all the lists of `deviceMap`; every
domain id listed in `deviceMap` is a key of `iommuMap` whose device list is not
empty; no key of `deviceMap` maps to an empty list; and in both maps the keys are
pairwise distinct. -/
theorem createIommuDeviceMap_maps_agree (bus : Bus) (entries : List WalkEntry) :
    (∀ g ∈ mapKeys (createIommuDeviceMap bus entries).iommuMap,
      (mapValues (createIommuDeviceMap bus entries).deviceMap).count g = 1) ∧
    (∀ g ∈ mapValues (createIommuDeviceMap bus entries).deviceMap,
      g ∈ mapKeys (createIommuDeviceMap bus entries).iommuMap ∧
      mapGetD (createIommuDeviceMap bus entries).iommuMap g ≠ []) ∧
    (∀ kv ∈ (createIommuDeviceMap bus entries).deviceMap, kv.2 ≠ []) ∧
    (mapKeys (createIommuDeviceMap bus entries).iommuMap).Nodup ∧
    (mapKeys (createIommuDeviceMap bus entries).deviceMap).Nodup := by
  have hfold : createIommuDeviceMap bus entries =
      (qualifying bus [] entries).foldl record ScanState.init := by
    unfold createIommuDeviceMap
    rw [walk_foldl]
    rfl
  obtain ⟨hnd, -, hcov⟩ := qualifying_newGroups bus entries []
  have hperm : (mapValues (createIommuDeviceMap bus entries).deviceMap).Perm
      (newGroups (qualifying bus [] entries)) := by
    rw [hfold]
    simpa [ScanState.init, mapValues] using
      foldl_record_deviceMap_values (qualifying bus [] entries) ScanState.init
  have hkeys : ∀ g, g ∈ mapKeys (createIommuDeviceMap bus entries).iommuMap ↔
      g ∈ (qualifying bus [] entries).map (·.group) := by
    intro g
    rw [mem_mapKeys_iff, hfold, foldl_record_keys]
    simp [ScanState.init, mapGet?]
  refine ⟨?_, ?_, ?_, ?_, ?_⟩
  · intro g hg
    rw [hperm.count_eq]
    exact List.count_eq_one_of_mem hnd (hcov g ((hkeys g).1 hg) (by simp))
  · intro g hg
    have hg' := mem_newGroups _ g (hperm.subset hg)
    refine ⟨(hkeys g).2 hg', ?_⟩
    rw [hfold, foldl_record_iommuMap]
    simp only [ScanState.init, mapGetD, mapGet?, Option.getD_none, List.nil_append]
    exact devicesOf_ne_nil g _ 0 hg'
  · rw [hfold]
    exact foldl_record_deviceMap_nonempty _ _ (by simp [ScanState.init])
  · rw [hfold]
    exact foldl_record_nodup _ _ (by simp [ScanState.init, mapKeys])
  · rw [hfold]
    exact foldl_record_deviceMap_nodup _ _ (by simp [ScanState.init, mapKeys])

/-! ## Device names and process start on sample values -/

theorem getDeviceName_samples :
    getDeviceName sampleHost.upperTable sampleHost.pciIds "20b5" = "GA100_A100_PCIE_80GB" ∧
    getDeviceName sampleHost.upperTable sampleHost.pciIds "1aef" =
      "GA102_HIGH_DEFINITION_AUDIO" ∧
    getDeviceName sampleHost.upperTable sampleHost.pciIds "ffff" = "" ∧
    getDeviceName sampleHost.upperTable none "20b5" = "" ∧
    displayName (fun c => c) "\t1234  a.b/c \t d-e(f)\t" "\t1234" = "A_B_C_DEF" ∧
    pathBase "/var/lib/kubelet/device-plugins/kata-xpu-GA100.sock" = "kata-xpu-GA100.sock" ∧
    pathBase "a/b//" = "b" ∧ pathBase "///" = "/" ∧ pathBase "" = "." := by
  decide

/-! ## C11: a walk error -/

theorem walk_error (bus : Bus) (pre : List WalkEntry) (e : WalkEntry) (post : List WalkEntry)
    (msg : String) (st : ScanState) (hpre : ∀ x ∈ pre, x.err = none) (he : e.err = some msg) :
    walk bus (pre ++ e :: post) st = ((walk bus pre st).1, some msg) := by
  rw [walk_append bus pre _ st hpre]
  simp [walk, walkFn, he]

/-- C11, as the code has it: when the walk reports an error at entry `e`, after
the entries `pre` were visited without one, `filepath.Walk` stops there and returns
the error, and `createIommuDeviceMap` leaves the two maps and the counter as they
were after `pre`; it returns nothing, so `InitiateDevicePlugin` does exactly what
it does on the walk `pre` alone: it calls `startDevicePlugin` once for every model
recorded before the error. -/
theorem InitiateDevicePlugin_walk_error (host : Host) (bus : Bus) (pre : List WalkEntry)
    (e : WalkEntry) (post : List WalkEntry) (msg : String)
    (hpre : ∀ x ∈ pre, x.err = none) (he : e.err = some msg) :
    walk bus (pre ++ e :: post) ScanState.init = (createIommuDeviceMap bus pre, some msg) ∧
    createIommuDeviceMap bus (pre ++ e :: post) = createIommuDeviceMap bus pre ∧
    InitiateDevicePlugin host bus (pre ++ e :: post) = InitiateDevicePlugin host bus pre ∧
    (InitiateDevicePlugin host bus (pre ++ e :: post)).started.length =
      (createIommuDeviceMap bus pre).deviceMap.length := by
  have hw := walk_error bus pre e post msg ScanState.init hpre he
  have hc : createIommuDeviceMap bus (pre ++ e :: post) = createIommuDeviceMap bus pre := by
    unfold createIommuDeviceMap
    rw [hw]
  refine ⟨hw, hc, ?_, ?_⟩
  · simp only [InitiateDevicePlugin, hc]
  · simp only [InitiateDevicePlugin, hc, createDevicePlugins, List.length_map]

/-- C11 as amended, on the walk that records `0000:c1:00.0` and then reports an
error: the maps are those of the walk of `0000:c1:00.0` alone. -/
theorem InitiateDevicePlugin_walk_error_witness :
    createIommuDeviceMap sampleBus failingWalk =
      ⟨[("214", [⟨"0000:c1:00.0", 0⟩])], [("20b5", ["214"])], 1⟩ :=
  ((InitiateDevicePlugin_walk_error sampleHost sampleBus [⟨"0000:c1:00.0", false, none⟩]
    ⟨"0000:c1:00.1", false, some "permission denied"⟩ [⟨"0000:3d:00.0", false, none⟩]
    "permission denied" (by decide) rfl).2.1).trans (by decide)

/-- C11 fails as stated on a walk that reports an error after a device was
recorded: `filepath.Walk` returns the error, and `InitiateDevicePlugin` still
starts the server of the model recorded before it. -/
theorem InitiateDevicePlugin_starts_after_walk_error :
    (walk sampleBus failingWalk ScanState.init).2 = some "permission denied" ∧
    (InitiateDevicePlugin sampleHost sampleBus failingWalk).devicePlugins =
      [{ NewGenericDevicePlugin "GA100_A100_PCIE_80GB" "/dev/vfio/" [⟨"214", Healthy⟩] with
          serverStarted := true }] ∧
    ¬ (InitiateDevicePlugin sampleHost sampleBus failingWalk).started = [] := by
  decide

/-! ## C16: the display name -/

theorem toUpperRune_not_lower (table : Char → Char)
    (htable : ∀ c : Char, 127 < c.toNat → ¬ (97 ≤ (table c).toNat ∧ (table c).toNat ≤ 122))
    (c : Char) :
    ¬ (97 ≤ (toUpperRune table c).toNat ∧ (toUpperRune table c).toNat ≤ 122) := by
  unfold toUpperRune
  by_cases h : c.toNat ≤ 127
  · rw [if_pos h]
    by_cases hl : 97 ≤ c.toNat ∧ c.toNat ≤ 122
    · rw [if_pos hl]
      obtain ⟨h₁, h₂⟩ := hl
      generalize c.toNat = n at *
      interval_cases n <;> decide
    · rw [if_neg hl]
      exact hl
  · rw [if_neg h]
    exact htable c (by omega)

theorem mem_collapseSpaces (s : List Char) (inRun : Bool) (c : Char)
    (h : c ∈ collapseSpaces inRun s) : c = '_' ∨ c ∈ s := by
  induction s generalizing inRun with
  | nil => simp [collapseSpaces] at h
  | cons x xs ih =>
    unfold collapseSpaces at h
    by_cases hx : isReSpace x = true
    · rw [if_pos hx] at h
      by_cases hr : inRun = true
      · rw [if_pos hr] at h
        rcases ih true h with h' | h'
        · exact Or.inl h'
        · exact Or.inr (List.mem_cons_of_mem _ h')
      · rw [if_neg hr, List.mem_cons] at h
        rcases h with h | h
        · exact Or.inl h
        · rcases ih true h with h' | h'
          · exact Or.inl h'
          · exact Or.inr (List.mem_cons_of_mem _ h')
    · rw [if_neg hx, List.mem_cons] at h
      rcases h with h | h
      · exact Or.inr (by simp [h])
      · rcases ih false h with h' | h'
        · exact Or.inl h'
        · exact Or.inr (List.mem_cons_of_mem _ h')

theorem displayName_charset (table : Char → Char)
    (htable : ∀ c : Char, 127 < c.toNat → ¬ (97 ≤ (table c).toNat ∧ (table c).toNat ≤ 122))
    (line pfx : String) (c : Char) (hc : c ∈ (displayName table line pfx).data) :
    (65 ≤ c.toNat ∧ c.toNat ≤ 90) ∨ (48 ≤ c.toNat ∧ c.toNat ≤ 57) ∨ c = '_' := by
  simp only [displayName, List.mem_filter] at hc
  obtain ⟨hmem, hname⟩ := hc
  have hkeep : ¬ (97 ≤ c.toNat ∧ c.toNat ≤ 122) ∧ c ≠ '.' := by
    rcases mem_collapseSpaces _ _ c hmem with h | h
    · rw [h]; decide
    · simp only [replaceChar, List.mem_map] at h
      obtain ⟨c₁, ⟨c₂, ⟨c₃, -, h₃⟩, h₂⟩, h₁⟩ := h
      by_cases hd : c₁ = '.'
      · simp only [hd, if_true] at h₁
        rw [← h₁]; decide
      · simp only [hd, if_false] at h₁
        rw [← h₁]
        refine ⟨?_, hd⟩
        by_cases hs : c₂ = '/'
        · simp only [hs, if_true] at h₂
          rw [← h₂]; decide
        · simp only [hs, if_false] at h₂
          rw [← h₂, ← h₃]
          exact toUpperRune_not_lower table htable c₃
  simp only [isNameRune, decide_eq_true_eq] at hname
  rcases hname with h | h | h | h | h
  · exact absurd h hkeep.1
  · exact Or.inl h
  · exact Or.inr (Or.inl h)
  · exact Or.inr (Or.inr h)
  · exact absurd h hkeep.2

theorem findDevice_eq (table : Char → Char) (pfx : String) (lines : List String) :
    findDevice table pfx lines = "" ∨
      ∃ line ∈ lines, hasPrefix line pfx = true ∧
        findDevice table pfx lines = displayName table line pfx := by
  induction lines with
  | nil => exact Or.inl rfl
  | cons line rest ih =>
    have hrest : findDevice table pfx rest = "" ∨
        ∃ l ∈ line :: rest, hasPrefix l pfx = true ∧
          findDevice table pfx rest = displayName table l pfx := by
      rcases ih with h | ⟨l, hl, hp, h⟩
      · exact Or.inl h
      · exact Or.inr ⟨l, List.mem_cons_of_mem _ hl, hp, h⟩
    unfold findDevice
    by_cases h₁ : hasPrefix line "#" = true
    · simp only [h₁, if_true]
      exact hrest
    · simp only [h₁, if_false]
      by_cases h₂ : hasPrefix line "\t" = true
      · simp only [h₂, Bool.not_true, Bool.false_eq_true, if_false]
        by_cases h₃ : hasPrefix line pfx = true
        · simp only [h₃, Bool.not_true, Bool.false_eq_true, if_false]
          exact Or.inr ⟨line, by simp, h₃, rfl⟩
        · simp only [h₃, Bool.not_false, if_true]
          exact hrest
      · simp only [h₂, Bool.not_false, if_true]
        exact Or.inl (by simp)

theorem locateVendor_sublist (vendorID : String) (lines rest : List String)
    (h : locateVendor vendorID lines = some rest) : ∀ l ∈ rest, l ∈ lines := by
  induction lines with
  | nil => simp [locateVendor] at h
  | cons line tl ih =>
    unfold locateVendor at h
    by_cases hp : hasPrefix line vendorID = true
    · simp only [hp, if_true, Option.some.injEq] at h
      subst h
      intro l hl
      exact List.mem_cons_of_mem _ hl
    · simp only [hp, if_false] at h
      intro l hl
      exact List.mem_cons_of_mem _ (ih h l hl)

theorem getDeviceName_eq (table : Char → Char) (pciIds : Option (List String))
    (deviceID : String) :
    getDeviceName table pciIds deviceID = "" ∨
      ∃ lines line, pciIds = some lines ∧ line ∈ lines ∧
        hasPrefix line ("\t" ++ deviceID) = true ∧
        getDeviceName table pciIds deviceID = displayName table line ("\t" ++ deviceID) := by
  cases pciIds with
  | none => exact Or.inl rfl
  | some lines =>
    cases hl : locateVendor nvidiaVendorID lines with
    | none => exact Or.inl (by simp only [getDeviceName, hl])
    | some rest =>
      have hg : getDeviceName table (some lines) deviceID =
          findDevice table ("\t" ++ deviceID) rest := by
        simp only [getDeviceName, hl]
      rw [hg]
      rcases findDevice_eq table ("\t" ++ deviceID) rest with h | ⟨line, hline, hp, h⟩
      · exact Or.inl h
      · exact Or.inr ⟨lines, line, rfl, locateVendor_sublist _ _ _ hl line hline, hp, h⟩

theorem pathBase_socketPath (name : String) (h : '/' ∉ name.data) :
    pathBase (DevicePluginPath ++ "kata-xpu-" ++ name ++ ".sock") =
      "kata-xpu-" ++ name ++ ".sock" := by
  have hdata : (DevicePluginPath ++ "kata-xpu-" ++ name ++ ".sock").data =
      "/var/lib/kubelet/device-plugins".data ++
        '/' :: ("kata-xpu-" ++ name ++ ".sock").data := by
    simp [DevicePluginPath, String.data_append]
  have hno : '/' ∉ ("kata-xpu-" ++ name ++ ".sock").data := by
    simp [String.data_append, h]
  have hne : (DevicePluginPath ++ "kata-xpu-" ++ name ++ ".sock") ≠ "" := by
    intro he
    have := congrArg String.data he
    rw [hdata] at this
    simp at this
  have hr : ("kata-xpu-" ++ name ++ ".sock").data.isEmpty = false := by
    simp [String.data_append]
  unfold pathBase
  simp only [hne, if_false, hdata, splitSlash_append_slash, splitSlash_no_slash _ hno,
    List.reverse_append, List.reverse_singleton, List.singleton_append, List.dropWhile_cons, hr]
  rfl

/-- C16: with a Unicode case table that maps no rune above ASCII to one of `a`-`z`,
the name `getDeviceName` returns for any device id and any catalog is empty or
is computed from a catalog line that starts with a tab and the device id, and
each of its characters is one of `A`-`Z` (65-90), `0`-`9` (48-57) or the
underscore, also for every line taken alone; so the endpoint path that
`NewGenericDevicePlugin` builds from it has the base name `kata-xpu-` followed by
the name and `.sock`. -/
theorem getDeviceName_charset (table : Char → Char) (pciIds : Option (List String))
    (deviceID : String)
    (htable : ∀ c : Char, 127 < c.toNat → ¬ (97 ≤ (table c).toNat ∧ (table c).toNat ≤ 122)) :
    (∀ line pfx, ∀ c ∈ (displayName table line pfx).data,
      (65 ≤ c.toNat ∧ c.toNat ≤ 90) ∨ (48 ≤ c.toNat ∧ c.toNat ≤ 57) ∨ c = '_') ∧
    (getDeviceName table pciIds deviceID = "" ∨
      ∃ lines line, pciIds = some lines ∧ line ∈ lines ∧
        hasPrefix line ("\t" ++ deviceID) = true ∧
        getDeviceName table pciIds deviceID = displayName table line ("\t" ++ deviceID)) ∧
    (∀ c ∈ (getDeviceName table pciIds deviceID).data,
      ((65 ≤ c.toNat ∧ c.toNat ≤ 90) ∨ (48 ≤ c.toNat ∧ c.toNat ≤ 57) ∨ c = '_') ∧
      c ≠ '/' ∧ c ≠ '.' ∧ isSpace c = false ∧ ¬ (97 ≤ c.toNat ∧ c.toNat ≤ 122)) ∧
    (∀ (devicePath : String) (devices : List Device),
      pathBase (NewGenericDevicePlugin (getDeviceName table pciIds deviceID) devicePath
          devices).socketPath =
        "kata-xpu-" ++ getDeviceName table pciIds deviceID ++ ".sock") := by
  have hline := displayName_charset table htable
  have hname : ∀ c ∈ (getDeviceName table pciIds deviceID).data,
      (65 ≤ c.toNat ∧ c.toNat ≤ 90) ∨ (48 ≤ c.toNat ∧ c.toNat ≤ 57) ∨ c = '_' := by
    intro c hc
    rcases getDeviceName_eq table pciIds deviceID with h | ⟨_, line, -, -, -, h⟩
    · rw [h] at hc
      simp at hc
    · rw [h] at hc
      exact hline line _ c hc
  have hclass : ∀ c : Char,
      ((65 ≤ c.toNat ∧ c.toNat ≤ 90) ∨ (48 ≤ c.toNat ∧ c.toNat ≤ 57) ∨ c = '_') →
      c ≠ '/' ∧ c ≠ '.' ∧ isSpace c = false ∧ ¬ (97 ≤ c.toNat ∧ c.toNat ≤ 122) := by
    intro c hc
    have h₁ : ('/' : Char).toNat = 47 := rfl
    have h₂ : ('.' : Char).toNat = 46 := rfl
    have h₃ : ('_' : Char).toNat = 95 := rfl
    have hn : (65 ≤ c.toNat ∧ c.toNat ≤ 90) ∨ (48 ≤ c.toNat ∧ c.toNat ≤ 57) ∨ c.toNat = 95 := by
      rcases hc with h | h | h
      · exact Or.inl h
      · exact Or.inr (Or.inl h)
      · exact Or.inr (Or.inr (by rw [h, h₃]))
    refine ⟨fun h => ?_, fun h => ?_, ?_, ?_⟩
    · rw [h, h₁] at hn; omega
    · rw [h, h₂] at hn; omega
    · simp only [isSpace, decide_eq_false_iff_not]
      omega
    · omega
  refine ⟨hline, getDeviceName_eq table pciIds deviceID, fun c hc => ⟨hname c hc, hclass c (hname c hc)⟩,
    fun devicePath devices => ?_⟩
  exact pathBase_socketPath _ (fun h => (hclass _ (hname _ h)).1 rfl)

/-- C16 on the sample catalog: device `20b5` is named `GA100_A100_PCIE_80GB` and
the base name of its endpoint is `kata-xpu-GA100_A100_PCIE_80GB.sock`. -/
theorem getDeviceName_charset_witness :
    getDeviceName sampleHost.upperTable sampleHost.pciIds "20b5" = "GA100_A100_PCIE_80GB" ∧
    pathBase (NewGenericDevicePlugin
        (getDeviceName sampleHost.upperTable sampleHost.pciIds "20b5") "/dev/vfio/"
        [⟨"214", Healthy⟩]).socketPath =
      "kata-xpu-" ++ getDeviceName sampleHost.upperTable sampleHost.pciIds "20b5" ++ ".sock" :=
  ⟨by decide,
    (getDeviceName_charset sampleHost.upperTable sampleHost.pciIds "20b5"
      (fun c h h' => by
        have : sampleHost.upperTable c = c := rfl
        rw [this] at h'
        omega)).2.2.2 "/dev/vfio/" [⟨"214", Healthy⟩]⟩

/-! ## C13: the annotation key prefix -/

end KataXpu
